import Mathlib

/-!
Application-server enumeration (SCXcore, `appserverenumeration.cpp`).

A shallow embedding of the command-line heuristics of `AppServerEnumeration`:
the generic key/value scanner `ParseOutCommandLineArg`, the class-path scan
`GetJBossPathFromClassPath`, the token lookups, `GetParentDirectory`, the
vendor extractors and `GetWeblogicHome` built on them, the sweep of `Update`
over the java processes and the reconciliation of the detected instances with
the instances held.

A computation that reads a string out of range has no result (`none`).

Strings (`std::string`, `std::wstring`) are lists of characters; `StrFromUTF8`
and `StrToUTF8` only change the character width and are the identity here.
A `vector<string>` is a list of strings, and an extractor that does
`ASInstances->push_back(inst)` returns the extended list.
-/

namespace SCXSystemLib

/-- A `std::string` / `std::wstring` value. -/
abbrev Str := List Char

/-! ## Constants of `appserverenumeration.h` -/

/-- Modelled from the spec: the header `appserverenumeration.h` declaring
`PATH_SEPERATOR` is not part of the sources at hand; the class-path entries are
separated by `:`. -/
def PATH_SEPERATOR : Str := ":".toList

/-- Modelled from the spec: the header `appserverenumeration.h` declaring
`JBOSS_RUN_JAR` is not part of the sources at hand; the marker is the jar name
`/bin/run.jar` of the comment above `GetJBossPathFromClassPath`. -/
def JBOSS_RUN_JAR : Str := "/bin/run.jar".toList

/-! ## Data model -/

/-- The vendor family of an application server instance. -/
inductive Vendor where
  | JBoss
  | Tomcat
  | WebSphere
  | WebLogic
  deriving DecidableEq, Repr

/-- Modelled from the spec: the classes `AppServerInstance`,
`JBossAppServerInstance`, `TomcatAppServerInstance` and
`WebSphereAppServerInstance` are declared outside the sources at hand. An
instance is the record of section 3 of the specification; the extractors fill
it with the arguments they hand to the constructors. -/
structure AppServerInstance where
  vendor : Vendor
  installPath : Str
  configPath : Str
  portOffset : Str
  deploymentMode : Str
  cell : Str
  node : Str
  server : Str
  profile : Str
  isRunning : Bool
  deriving DecidableEq, Repr

/-! ## String primitives -/

/-- The position of the first occurrence of `pat` in a string
(`std::wstring::find`), `none` standing for `npos`. -/
def strFind (pat : Str) : Str → Option Nat
  | [] => if pat = [] then some 0 else none
  | c :: cs =>
    if pat.isPrefixOf (c :: cs) then some 0
    else (strFind pat cs).map (fun p => p + 1)

/-- Modelled from the spec: `StrTokenize` belongs to `scxcorelib/stringaid.h`,
outside the sources at hand. The entries of a class path are the stretches
between separator characters, in order. An entry may be empty here (such an
entry never holds the marker), and blanks around an entry are kept. -/
def StrTokenize : Str → Str → List Str
  | [], _ => [[]]
  | c :: cs, delimiters =>
    if c ∈ delimiters then [] :: StrTokenize cs delimiters
    else
      match StrTokenize cs delimiters with
      | [] => [[c]]
      | t :: ts => (c :: t) :: ts

/-! ## `ParseOutCommandLineArg` -/

/-- The loop of `ParseOutCommandLineArg` over the remaining tokens; the Boolean
is `returnTheNextArgAsValue`. Leaving the loop without a `break` returns the
initial empty `result`. -/
def ParseOutCommandLineArg.loop (key : Str) (EqualsDelimited SpaceDelimited : Bool) :
    List Str → Bool → Str
  | [], _ => []
  | arg :: rest, returnTheNextArgAsValue =>
    if returnTheNextArgAsValue then arg
    else if key = arg ∧ SpaceDelimited = true then
      ParseOutCommandLineArg.loop key EqualsDelimited SpaceDelimited rest true
    else if arg.length > key.length + 1 then
      if arg.take key.length = key then
        if (EqualsDelimited && arg[key.length]? == some '=') ||
            (SpaceDelimited && arg[key.length]? == some ' ') then
          arg.drop (key.length + 1)
        else ParseOutCommandLineArg.loop key EqualsDelimited SpaceDelimited rest false
      else ParseOutCommandLineArg.loop key EqualsDelimited SpaceDelimited rest false
    else ParseOutCommandLineArg.loop key EqualsDelimited SpaceDelimited rest false

/-- Parse the command-line tokens looking for `key`; the associated value is
returned, or the empty string when there is none. -/
def ParseOutCommandLineArg (params : List Str) (key : Str)
    (EqualsDelimited SpaceDelimited : Bool) : Str :=
  ParseOutCommandLineArg.loop key EqualsDelimited SpaceDelimited params false

/-! ## `GetJBossPathFromClassPath` -/

/-- The loop of `GetJBossPathFromClassPath` over the class-path entries: the
first entry in which `JBOSS_RUN_JAR` is found at `pos` gives
`part->substr(0, pos + 1)`. -/
def GetJBossPathFromClassPath.loop : List Str → Str
  | [] => []
  | part :: rest =>
    match strFind JBOSS_RUN_JAR part with
    | some pos => part.take (pos + 1)
    | none => GetJBossPathFromClassPath.loop rest

/-- Find the class-path item holding `/bin/run.jar` and return the application
server base directory. -/
def GetJBossPathFromClassPath (classpath : Str) : Str :=
  GetJBossPathFromClassPath.loop (StrTokenize classpath PATH_SEPERATOR)

/-! ## Vendor extractors -/

/-- Modelled from the spec: the constructor of `JBossAppServerInstance` is
declared outside the sources at hand. Its arguments are the install path, the
configuration, the port binding and the deployment mode; a fresh instance is
not running until `SetIsRunning`. -/
def JBossAppServerInstance (id config portsBinding deployment : Str) : AppServerInstance :=
  { vendor := Vendor.JBoss, installPath := id, configPath := config,
    portOffset := portsBinding, deploymentMode := deployment,
    cell := [], node := [], server := [], profile := [], isRunning := false }

/-- Modelled from the spec: the constructor of `TomcatAppServerInstance` is
declared outside the sources at hand. Its first argument is the configuration
(catalina base) path and its second the install (catalina home) path. -/
def TomcatAppServerInstance (id homePath : Str) : AppServerInstance :=
  { vendor := Vendor.Tomcat, installPath := homePath, configPath := id,
    portOffset := [], deploymentMode := [],
    cell := [], node := [], server := [], profile := [], isRunning := false }

/-- The setter `AppServerInstance::SetIsRunning`. -/
def AppServerInstance.SetIsRunning (inst : AppServerInstance) (isRunning : Bool) :
    AppServerInstance :=
  { inst with isRunning := isRunning }

/-- Get the JBoss parameters from the command line and create an instance.
The two pairs are `(instDir, gotInstPath)` after the class-path block and after
the `-Djboss.home.dir` block; the triple is `(config, ports, deployment)` after
the configuration cascade. `inst->Update()` reads the server's files and leaves
the fields set here alone. -/
def CreateJBossInstance (ASInstances : List AppServerInstance) (params : List Str) :
    List AppServerInstance :=
  let arg := ParseOutCommandLineArg params "-classpath".toList true true
  let fromClassPath : Str × Bool :=
    if arg.length > 0 then
      let instDir := GetJBossPathFromClassPath arg
      if instDir.length > 0 then (instDir, true) else (instDir, false)
    else ([], false)
  let resolved : Str × Bool :=
    if !fromClassPath.2 then
      let arg2 := ParseOutCommandLineArg params "-Djboss.home.dir".toList true true
      if arg2.length > 0 then (arg2, true) else (arg2, false)
    else fromClassPath
  let instDir := resolved.1
  let gotInstPath := resolved.2
  let configFromDashC := ParseOutCommandLineArg params "-c".toList false true
  let configFromJBossProperty :=
    ParseOutCommandLineArg params "-Djboss.server.name".toList true false
  let configFromJBossDomainProperty :=
    ParseOutCommandLineArg params "-Djboss.server.data.dir".toList true false
  let configFromJBossStandaloneProperty :=
    ParseOutCommandLineArg params "-Dlogging.configuration".toList true false
  let cascade : Str × Str × Str :=
    if configFromJBossDomainProperty.length ≠ 0 then
      (configFromJBossDomainProperty, [], [])
    else if configFromJBossStandaloneProperty.length ≠ 0 then
      let confDir := ParseOutCommandLineArg params "-Djboss.server.config.dir".toList true false
      let baseDir := ParseOutCommandLineArg params "-Djboss.server.base.dir".toList true false
      let homeDir := ParseOutCommandLineArg params "-Djboss.home.dir".toList true false
      let config : Str :=
        if confDir.length > 0 then confDir ++ "/".toList
        else if baseDir.length > 0 then baseDir ++ "/configuration/".toList
        else homeDir ++ "/standalone/configuration/".toList
      let config : Str :=
        if configFromDashC.length ≠ 0 then config ++ configFromDashC else config
      (config,
        ParseOutCommandLineArg params "-Djboss.socket.binding.port-offset".toList true false,
        "standalone".toList)
    else if configFromDashC.length ≠ 0 then (configFromDashC, [], [])
    else if configFromJBossProperty.length ≠ 0 then (configFromJBossProperty, [], [])
    else ("default".toList, [], [])
  let config := cascade.1
  let deployment := cascade.2.2
  let ports : Str :=
    if cascade.2.1.isEmpty then
      ParseOutCommandLineArg params "-Djboss.service.binding.set".toList true false
    else cascade.2.1
  if gotInstPath then
    let inst := JBossAppServerInstance instDir config ports deployment
    ASInstances ++ [inst.SetIsRunning true]
  else ASInstances

/-- Get the Tomcat parameters from the command line and create an instance.
`inst->Update()` reads the server's files and leaves the fields set here
alone. -/
def CreateTomcatInstance (ASInstances : List AppServerInstance) (params : List Str) :
    List AppServerInstance :=
  let instDir := ParseOutCommandLineArg params "-Dcatalina.home".toList true true
  let gotInstPath : Bool := if !instDir.isEmpty then true else false
  let config := ParseOutCommandLineArg params "-Dcatalina.base".toList true true
  let config : Str := if config.isEmpty then instDir else config
  if gotInstPath then
    let inst := TomcatAppServerInstance config instDir
    ASInstances ++ [inst.SetIsRunning true]
  else ASInstances

/-! ## Token lookup -/

/-- Check the command-line tokens for an entry equal to `value`. -/
def CheckProcessCmdLineArgExists : List Str → Str → Bool
  | [], _ => false
  | pos :: rest, value =>
    if value = pos then true else CheckProcessCmdLineArgExists rest value

/-- The loop of `GetArgNumber`; the state is `(retval, found)` and the loop
stops as soon as `found` is set. -/
def GetArgNumber.loop (value : Str) : List Str → Int → Bool → Int × Bool
  | [], retval, found => (retval, found)
  | pos :: rest, retval, found =>
    if found then (retval, found)
    else if value = pos then GetArgNumber.loop value rest (retval + 1) true
    else GetArgNumber.loop value rest (retval + 1) found

/-- The argument number of the first token equal to `value`, or `-1`. The
counter is an `int`; a command line has far fewer than `2^31` tokens and the
counter is not wrapped here. -/
def GetArgNumber (params : List Str) (value : Str) : Int :=
  let state := GetArgNumber.loop value params (-1) false
  if !state.2 then -1 else state.1

/-! ## `GetParentDirectory` -/

/-- The position of the last character of a string that belongs to `chars`
(`std::string::find_last_of`), `none` standing for `npos`. -/
def find_last_of (chars : Str) : Str → Option Nat
  | [] => none
  | c :: cs =>
    match find_last_of chars cs with
    | some pos => some (pos + 1)
    | none => if c ∈ chars then some 0 else none

/-- The `for` loop of `GetParentDirectory`: each turn cuts the path at its
last `/`; `substr(0, npos)` is the whole string. -/
def GetParentDirectory.loop : Nat → Str → Str
  | 0, thePath => thePath
  | levels + 1, thePath =>
    GetParentDirectory.loop levels
      (match find_last_of "/".toList thePath with
        | some pos => thePath.take pos
        | none => thePath)

/-- Remove the last folder entries from the input folder. The read of
`directoryPath[directoryPath.length()-1]` is out of range for an empty path,
whose result is `none`; for a path ending in `/` the code keeps
`directoryPath.substr(directoryPath.length()-1)`, the text from the last
position on. -/
def GetParentDirectory (directoryPath : Str) (levels : Nat) : Option Str :=
  match directoryPath[directoryPath.length - 1]? with
  | none => none
  | some last =>
    let thePath : Str :=
      if '/' = last then directoryPath.drop (directoryPath.length - 1)
      else directoryPath
    some (GetParentDirectory.loop levels thePath)

/-! ## WebSphere -/

/-- Modelled from the spec: the header `appserverenumeration.h` declaring
`WEBSPHERE_RUNTIME_CLASS` is not part of the sources at hand; the runtime-class
marker is `com.ibm.ws.runtime.WsServer`. -/
def WEBSPHERE_RUNTIME_CLASS : Str := "com.ibm.ws.runtime.WsServer".toList

/-- Cut a string at its last `/`: the text before it and the text after
it. -/
def splitAtLastSlash (text : Str) : Option (Str × Str) :=
  match find_last_of "/".toList text with
  | some pos => some (text.take pos, text.drop (pos + 1))
  | none => none

/-- Modelled from the spec: `SCXRegex` belongs to `scxcorelib/scxregex.h`,
outside the sources at hand. This is `ReturnMatch` for the one pattern in use,
the five-segment pattern `(.*)/(.*)/(.*)/(.*)/(.*)`: a text with fewer than
four `/` does not match; otherwise the vector holds the whole text and then the
five segments, the last four being the stretches around the last three `/` and
the first one all the text before them. -/
def SCXRegex.ReturnMatch (text : Str) : Option (List Str) :=
  match splitAtLastSlash text with
  | none => none
  | some (rest4, seg5) =>
    match splitAtLastSlash rest4 with
    | none => none
    | some (rest3, seg4) =>
      match splitAtLastSlash rest3 with
      | none => none
      | some (rest2, seg3) =>
        match splitAtLastSlash rest2 with
        | none => none
        | some (seg1, seg2) => some [text, seg1, seg2, seg3, seg4, seg5]

/-- Modelled from the spec: `SCXFilePath` belongs to `scxcorelib/scxfilepath.h`,
outside the sources at hand. `GetFilename` is the final path segment, the text
after the last `/` (the whole text when there is none). -/
def SCXFilePath.GetFilename (path : Str) : Str :=
  match find_last_of "/".toList path with
  | some pos => path.drop (pos + 1)
  | none => path

/-- Modelled from the spec: the constructor of `WebSphereAppServerInstance` is
declared outside the sources at hand. Its arguments are the install path, the
cell, the node, the profile and the server; no configuration path is handed to
it. -/
def WebSphereAppServerInstance (id cell node profile server : Str) : AppServerInstance :=
  { vendor := Vendor.WebSphere, installPath := id, configPath := [],
    portOffset := [], deploymentMode := [],
    cell := cell, node := node, server := server, profile := profile, isRunning := false }

/-- The test of lines 343-345 on the `-Dosgi.configuration.area` value: it is
not empty, it matches the five-segment pattern and `v_profileDiskPath[3]` is
`servers`. -/
def CreateWebSphereInstance.accepted (instDir : Str) : Bool :=
  !instDir.isEmpty && (SCXRegex.ReturnMatch instDir).isSome &&
    (((SCXRegex.ReturnMatch instDir).getD []).getD 3 [] == "servers".toList)

/-- Get the WebSphere parameters from the command line and create an instance.
The first pair is `((wasCell, wasNode, wasServer), gotParams)`, `configRoot`
being read and not used; the triple is `(instDir, wasProfile, gotInstPath)`.
`inst->Update()` reads the server's files and leaves the fields set here
alone. -/
def CreateWebSphereInstance (ASInstances : List AppServerInstance) (params : List Str) :
    List AppServerInstance :=
  let argNumberForRuntimeClass := GetArgNumber params WEBSPHERE_RUNTIME_CLASS
  let positional : (Str × Str × Str) × Bool :=
    if argNumberForRuntimeClass ≥ 0 then
      if params.length ≥ argNumberForRuntimeClass.toNat + 5 then
        ((params.getD (argNumberForRuntimeClass.toNat + 2) [],
          params.getD (argNumberForRuntimeClass.toNat + 3) [],
          params.getD (argNumberForRuntimeClass.toNat + 4) []), true)
      else (([], [], []), false)
    else (([], [], []), false)
  let wasCell := positional.1.1
  let wasNode := positional.1.2.1
  let wasServer := positional.1.2.2
  let gotParams := positional.2
  let instDir := ParseOutCommandLineArg params "-Dosgi.configuration.area".toList true true
  let v_profileDiskPath : List Str := (SCXRegex.ReturnMatch instDir).getD []
  let install : Str × Str × Bool :=
    if CreateWebSphereInstance.accepted instDir then
      (v_profileDiskPath.getD 1 [] ++ "/".toList ++ v_profileDiskPath.getD 2 [] ++ "/".toList ++
          v_profileDiskPath.getD 3 [] ++ "/".toList ++ v_profileDiskPath.getD 4 [],
        v_profileDiskPath.getD 2 [], true)
    else
      let instDir := ParseOutCommandLineArg params "-Dserver.root".toList true true
      if !instDir.isEmpty then (instDir, SCXFilePath.GetFilename instDir, true)
      else (instDir, [], false)
  let instDir := install.1
  let wasProfile := install.2.1
  let gotInstPath := install.2.2
  if gotInstPath && gotParams then
    let inst := WebSphereAppServerInstance instDir wasCell wasNode wasProfile wasServer
    ASInstances ++ [inst.SetIsRunning true]
  else ASInstances

/-! ## WebLogic -/

/-- Get the WebLogic parameters from the command line and find the base
directory. The result is `none` when `GetParentDirectory` is handed an empty
path. `GetParentDirectory(path)` without a second argument removes one level:
the default is declared in the header, outside the sources at hand, and is
taken from the specification (one level up). -/
def GetWeblogicHome (params : List Str) : Option Str :=
  let wlPlatformHome := ParseOutCommandLineArg params "-Dplatform.home".toList true true
  let wlPlatformHome12c := ParseOutCommandLineArg params "-Dbea.home".toList true true
  let wlPlatformHome12c3 := ParseOutCommandLineArg params "-Dweblogic.home".toList true true
  if !wlPlatformHome.isEmpty then GetParentDirectory wlPlatformHome 1
  else if !wlPlatformHome12c.isEmpty then some wlPlatformHome12c
  else if !wlPlatformHome12c3.isEmpty then
    (GetParentDirectory wlPlatformHome12c3 1).bind (fun parent => GetParentDirectory parent 1)
  else
    let wlBootId :=
      ParseOutCommandLineArg params "-Dweblogic.system.BootIdentityFile".toList true true
    if !wlBootId.isEmpty then GetParentDirectory wlBootId 8 else some []

/-! ## `Update`: the sweep over the java processes -/

/-- The JBoss test of lines 487-489. -/
def Update.isJBoss (params : List Str) : Bool :=
  CheckProcessCmdLineArgExists params "org.jboss.Main".toList ||
    CheckProcessCmdLineArgExists params "org.jboss.as.standalone".toList ||
    CheckProcessCmdLineArgExists params "org.jboss.as.server".toList

/-- The Tomcat test of line 494. -/
def Update.isTomcat (params : List Str) : Bool :=
  CheckProcessCmdLineArgExists params "org.apache.catalina.startup.Bootstrap".toList

/-- The WebLogic test of line 500. -/
def Update.isWeblogic (params : List Str) : Bool :=
  CheckProcessCmdLineArgExists params "weblogic.Server".toList

/-- The WebSphere test of lines 512-513. -/
def Update.isWebSphere (params : List Str) : Bool :=
  CheckProcessCmdLineArgExists params "com.ibm.ws.bootstrap.WSLauncher".toList &&
    CheckProcessCmdLineArgExists params WEBSPHERE_RUNTIME_CLASS

/-- The local variables of `Update` that the loop over the processes
changes. -/
structure UpdateState where
  ASInstances : List AppServerInstance
  gotWeblogicProcesses : Bool
  weblogicProcesses : List Str
  deriving DecidableEq, Repr

/-- The body of the loop of `Update` for one process whose parameters were
obtained (lines 486-516). The result is `none` when `GetWeblogicHome` has
none. -/
def Update.process (state : UpdateState) (params : List Str) : Option UpdateState :=
  let afterJBoss :=
    if Update.isJBoss params then CreateJBossInstance state.ASInstances params
    else state.ASInstances
  let afterTomcat :=
    if Update.isTomcat params then CreateTomcatInstance afterJBoss params
    else afterJBoss
  let afterWeblogic : Option (Bool × List Str) :=
    if Update.isWeblogic params then
      match GetWeblogicHome params with
      | none => none
      | some wlHome =>
        if !wlHome.isEmpty then some (true, state.weblogicProcesses ++ [wlHome])
        else some (state.gotWeblogicProcesses, state.weblogicProcesses)
    else some (state.gotWeblogicProcesses, state.weblogicProcesses)
  match afterWeblogic with
  | none => none
  | some (gotWeblogicProcesses, weblogicProcesses) =>
    let afterWebSphere :=
      if Update.isWebSphere params then CreateWebSphereInstance afterTomcat params
      else afterTomcat
    some { ASInstances := afterWebSphere, gotWeblogicProcesses := gotWeblogicProcesses,
           weblogicProcesses := weblogicProcesses }

/-- Modelled from the spec: `ProcessInstance` belongs to
`scxsystemlib/processinstance.h`, outside the sources at hand; it is the handle
of one process of the external process source. -/
structure ProcessInstance where
  pid : Nat
  deriving DecidableEq, Repr

/-- The collaborators behind `m_deps`: the java processes found by name, the
parameters of a process (`none` when `GetParameters` returns `false`) and the
external WebLogic enumerator. -/
structure AppServerPALDependencies where
  Find : Str → List ProcessInstance
  GetParameters : ProcessInstance → Option (List Str)
  GetWeblogicInstances : List Str → List AppServerInstance

/-- The loop of `Update` over the processes found (lines 461-518); a process
whose parameters cannot be obtained is passed over. -/
def Update.loop (deps : AppServerPALDependencies) :
    List ProcessInstance → UpdateState → Option UpdateState
  | [], state => some state
  | it :: rest, state =>
    match deps.GetParameters it with
    | none => Update.loop deps rest state
    | some params =>
      match Update.process state params with
      | none => none
      | some next => Update.loop deps rest next

/-- The first part of `Update` (lines 455-534): the list `ASInstances` of the
instances detected in this sweep, the WebLogic instances coming last. -/
def Update.detect (deps : AppServerPALDependencies) : Option (List AppServerInstance) :=
  match Update.loop deps (deps.Find "java".toList)
      { ASInstances := [], gotWeblogicProcesses := false, weblogicProcesses := [] } with
  | none => none
  | some state =>
    if state.gotWeblogicProcesses then
      some (state.ASInstances ++ deps.GetWeblogicInstances state.weblogicProcesses)
    else some state.ASInstances

/-- The batch of WebLogic homes in the words of the specification, to be
compared with the list that `Update` builds: the non-empty `GetWeblogicHome`
results of the processes whose tokens contain `weblogic.Server`, in process
order. -/
def Update.weblogicBatchSpec (deps : AppServerPALDependencies)
    (procList : List ProcessInstance) : List Str :=
  procList.filterMap (fun it =>
    match deps.GetParameters it with
    | none => none
    | some params =>
      if "weblogic.Server".toList ∈ params then
        match GetWeblogicHome params with
        | none => none
        | some wlHome => if wlHome = [] then none else some wlHome
      else none)

/-! ## Reconciliation -/

/-- Modelled from the spec: the identity key of an instance (section 3), the
vendor and the install path with the profile and the server as
disambiguators. -/
def identityKey (inst : AppServerInstance) : Vendor × Str × Str × Str :=
  (inst.vendor, inst.installPath, inst.profile, inst.server)

/-- Modelled from the spec: the merged instance of section 4.7. The identity
fields are kept from the known instance, the refreshable fields (configuration
path and extras) are taken from the detected one and `isRunning` is set. -/
def mergeInstance (known detected : AppServerInstance) : AppServerInstance :=
  { known with
    configPath := detected.configPath, portOffset := detected.portOffset,
    deploymentMode := detected.deploymentMode, cell := detected.cell,
    node := detected.node, isRunning := true }

/-- Modelled from the spec: the step of the merge of section 4.7 that adds a
detected instance as new. It is added, running, when no entry of the working
list has its identity key; the merge never produces two entries with the same
identity key, so a detected instance whose key is already there is not added a
second time. -/
def addDetected (working : List AppServerInstance) (detected : AppServerInstance) :
    List AppServerInstance :=
  if working.any (fun havingKey => decide (identityKey havingKey = identityKey detected)) then
    working
  else working ++ [detected.SetIsRunning true]

/-- Modelled from the spec: `UpdateInstancesWithRunningProcesses` of
`ManipulateAppServerInstances` is defined in `manipulateappserverinstances.cpp`,
outside the sources at hand. This is the merge of section 4.7: a known
instance with a detected instance of the same identity key is merged with it,
a known instance without one is kept with `isRunning` cleared, and each
detected instance, in order, with no instance of its key is added as running.
The result is the new content of the first argument. -/
def ManipulateAppServerInstances.UpdateInstancesWithRunningProcesses
    (previouslyKnownInstances runningProcesses : List AppServerInstance) :
    List AppServerInstance :=
  runningProcesses.foldl addDetected
    (previouslyKnownInstances.map (fun known =>
      match runningProcesses.find? (fun detected =>
          decide (identityKey detected = identityKey known)) with
      | some detected => mergeInstance known detected
      | none => known.SetIsRunning false))

/-- Update all AppServer data: the instances detected in this sweep are merged
into the instances held (lines 536-564) and the merged list replaces them. The
argument is the content of the enumeration before the call and the result its
content after it. -/
def Update (deps : AppServerPALDependencies) (heldInstances : List AppServerInstance) :
    Option (List AppServerInstance) :=
  match Update.detect deps with
  | none => none
  | some ASInstances =>
    some (ManipulateAppServerInstances.UpdateInstancesWithRunningProcesses
      heldInstances ASInstances)

/-! ## Lemmas on `ParseOutCommandLineArg` -/

/-- A token begins with `key` followed by the character `c` exactly when its
first `key.length` characters are `key` and the next one is `c`. -/
theorem prefix_key_char_iff (key arg : Str) (c : Char) :
    (key ++ [c]) <+: arg ↔ arg.take key.length = key ∧ arg[key.length]? = some c := by
  constructor
  · rintro ⟨t, rfl⟩
    constructor
    · simp
    · rw [List.append_assoc, List.getElem?_append_right (Nat.le_refl _)]
      simp
  · rintro ⟨h1, h2⟩
    have hlt : key.length < arg.length := by
      rcases Nat.lt_or_ge key.length arg.length with h | h
      · exact h
      · rw [List.getElem?_eq_none h] at h2
        cases h2
    have hdrop : arg.drop key.length = c :: arg.drop (key.length + 1) := by
      rw [List.drop_eq_getElem_cons hlt]
      rw [List.getElem?_eq_getElem hlt] at h2
      injection h2 with h2
      rw [h2]
    refine ⟨arg.drop (key.length + 1), ?_⟩
    calc key ++ [c] ++ arg.drop (key.length + 1)
        = arg.take key.length ++ arg.drop key.length := by rw [hdrop, h1]; simp
      _ = arg := List.take_append_drop _ _

/-- One turn of the loop once the flag is set: the token is returned. -/
theorem loop_flag (key : Str) (e s : Bool) (arg : Str) (rest : List Str) :
    ParseOutCommandLineArg.loop key e s (arg :: rest) true = arg := by
  simp [ParseOutCommandLineArg.loop]

/-- One turn of the loop while the flag is clear, with the two delimiter tests
written as prefix tests. -/
theorem loop_step (key : Str) (e s : Bool) (arg : Str) (rest : List Str) :
    ParseOutCommandLineArg.loop key e s (arg :: rest) false =
      if key = arg ∧ s = true then ParseOutCommandLineArg.loop key e s rest true
      else if key.length + 1 < arg.length ∧
          ((e = true ∧ (key ++ ['=']) <+: arg) ∨ (s = true ∧ (key ++ [' ']) <+: arg)) then
        arg.drop (key.length + 1)
      else ParseOutCommandLineArg.loop key e s rest false := by
  rw [ParseOutCommandLineArg.loop]
  simp only [prefix_key_char_iff, Bool.false_eq_true, if_false]
  by_cases h1 : key = arg ∧ s = true
  · simp [h1]
  · rw [if_neg h1, if_neg h1]
    by_cases h2 : arg.length > key.length + 1
    · by_cases h3 : arg.take key.length = key
      · simp [h2, h3]
      · simp [h2, h3]
    · have h2' : ¬ (key.length + 1 < arg.length) := h2
      simp [h2, h2']

/-- A token, when neither delimiter form nor the bare key matches it, is
skipped. -/
theorem loop_skip (key : Str) (e s : Bool) (arg : Str) (rest : List Str)
    (hkey : s = true → arg ≠ key)
    (heq : e = true → ¬ (key ++ ['=']) <+: arg)
    (hsp : s = true → ¬ (key ++ [' ']) <+: arg) :
    ParseOutCommandLineArg.loop key e s (arg :: rest) false =
      ParseOutCommandLineArg.loop key e s rest false := by
  rw [loop_step]
  have h1 : ¬ (key = arg ∧ s = true) := fun h => hkey h.2 h.1.symm
  have h2 : ¬ (key.length + 1 < arg.length ∧
      ((e = true ∧ (key ++ ['=']) <+: arg) ∨ (s = true ∧ (key ++ [' ']) <+: arg))) := by
    rintro ⟨_, h | h⟩
    · exact heq h.1 h.2
    · exact hsp h.1 h.2
  rw [if_neg h1, if_neg h2]

/-- With only the equals-delimited form enabled the loop returns the remainder
of the first token that is longer than `key` plus `=` and begins with them. -/
theorem loop_equals_only (key : Str) (tokens : List Str) :
    ParseOutCommandLineArg.loop key true false tokens false =
      match tokens.find? (fun t =>
          decide (key.length + 1 < t.length ∧ (key ++ ['=']) <+: t)) with
      | some t => t.drop (key.length + 1)
      | none => [] := by
  induction tokens with
  | nil => simp [ParseOutCommandLineArg.loop]
  | cons arg rest ih =>
    rw [loop_step, List.find?_cons]
    by_cases h : key.length + 1 < arg.length ∧ (key ++ ['=']) <+: arg
    · simp [h]
    · have h' : ¬ (key.length + 1 < arg.length ∧
          ((true = true ∧ (key ++ ['=']) <+: arg) ∨
            (false = true ∧ (key ++ [' ']) <+: arg))) := by
        rintro ⟨h1, h2 | h2⟩
        · exact h ⟨h1, h2.2⟩
        · exact Bool.false_ne_true h2.1
      rw [if_neg (fun hc => Bool.false_ne_true hc.2), if_neg h', ih]
      simp [h]

/-- The loop returns the empty string when no token matches an enabled form. -/
theorem loop_no_match (key : Str) (e s : Bool) (tokens : List Str)
    (hkey : s = true → ∀ t ∈ tokens, t ≠ key)
    (heq : e = true → ∀ t ∈ tokens, ¬ (key ++ ['=']) <+: t)
    (hsp : s = true → ∀ t ∈ tokens, ¬ (key ++ [' ']) <+: t) :
    ParseOutCommandLineArg.loop key e s tokens false = [] := by
  induction tokens with
  | nil => simp [ParseOutCommandLineArg.loop]
  | cons arg rest ih =>
    rw [loop_skip key e s arg rest
      (fun h => hkey h arg (List.mem_cons_self _ _))
      (fun h => heq h arg (List.mem_cons_self _ _))
      (fun h => hsp h arg (List.mem_cons_self _ _))]
    exact ih
      (fun h t ht => hkey h t (List.mem_cons_of_mem _ ht))
      (fun h t ht => heq h t (List.mem_cons_of_mem _ ht))
      (fun h t ht => hsp h t (List.mem_cons_of_mem _ ht))

/-- An extractor that ends in `if got then L ++ [x] else L` has appended the
instance `inst` only if `got` holds and `x` is `inst`. -/
theorem appended_iff_got {α : Type} (got : Bool) (L : List α) (x inst : α)
    (h : (if got = true then L ++ [x] else L) = L ++ [inst]) : got = true ∧ x = inst := by
  cases got with
  | false =>
    have hlen := congrArg List.length h
    simp at hlen
  | true =>
    exact ⟨rfl, by simpa using h⟩

/-! ## Lemmas on `strFind` and the class-path loop -/

/-- The search `strFind` fails exactly when the pattern does not occur. -/
theorem strFind_eq_none_iff (pat s : Str) : strFind pat s = none ↔ ¬ pat <:+: s := by
  induction s with
  | nil =>
    by_cases hp : pat = []
    · simp [strFind, hp]
    · simp [strFind, hp]
  | cons c cs ih =>
    rw [strFind, List.infix_cons_iff]
    by_cases hpre : pat <+: c :: cs
    · have hb : pat.isPrefixOf (c :: cs) = true := List.isPrefixOf_iff_prefix.mpr hpre
      simp [hb, hpre]
    · have hb : ¬ pat.isPrefixOf (c :: cs) = true := fun hc =>
        hpre (List.isPrefixOf_iff_prefix.mp hc)
      rw [if_neg hb]
      simp [hpre, ih]

/-- The marker `/bin/run.jar` has no proper overlap with itself: it is not a
prefix of one of its own non-empty proper prefixes followed by itself. -/
theorem JBOSS_RUN_JAR_no_overlap (k : Nat) (h0 : 0 < k) (hk : k < 12) :
    ¬ JBOSS_RUN_JAR <+: JBOSS_RUN_JAR.take k ++ JBOSS_RUN_JAR := by
  interval_cases k <;> decide

/-- The marker is a prefix of a non-empty `Q` followed by the marker only if
it already occurs at the start of `Q`. -/
theorem marker_prefix_append (Q : Str) (hQ : Q ≠ [])
    (h : JBOSS_RUN_JAR <+: Q ++ JBOSS_RUN_JAR) : JBOSS_RUN_JAR <+: Q := by
  have hlen : JBOSS_RUN_JAR.length = 12 := by decide
  rcases Nat.lt_or_ge Q.length 12 with hlt | hge
  · exfalso
    have hQm : Q <+: JBOSS_RUN_JAR :=
      List.prefix_of_prefix_length_le (List.prefix_append Q JBOSS_RUN_JAR) h
        (by rw [hlen]; exact Nat.le_of_lt hlt)
    have hQeq : Q = JBOSS_RUN_JAR.take Q.length := (List.prefix_iff_eq_take.mp hQm)
    have hpos : 0 < Q.length := List.length_pos.mpr hQ
    apply JBOSS_RUN_JAR_no_overlap Q.length hpos hlt
    rw [← hQeq]
    exact h
  · exact List.prefix_of_prefix_length_le h (List.prefix_append Q JBOSS_RUN_JAR)
      (by rw [hlen]; exact hge)

/-- In `P` followed by the marker, with no marker inside `P`, the first
occurrence of the marker is the final one. -/
theorem strFind_marker_append (P : Str) (hP : ¬ JBOSS_RUN_JAR <:+: P) :
    strFind JBOSS_RUN_JAR (P ++ JBOSS_RUN_JAR) = some P.length := by
  induction P with
  | nil => decide
  | cons c P ih =>
    have hnp : ¬ JBOSS_RUN_JAR <+: (c :: P) ++ JBOSS_RUN_JAR := fun hc =>
      hP (marker_prefix_append (c :: P) (List.cons_ne_nil c P) hc).isInfix
    have hP2 : ¬ JBOSS_RUN_JAR <:+: P := fun hc =>
      hP (List.infix_cons_iff.mpr (Or.inr hc))
    have hb : ¬ JBOSS_RUN_JAR.isPrefixOf (c :: (P ++ JBOSS_RUN_JAR)) = true := fun hc =>
      hnp (List.isPrefixOf_iff_prefix.mp hc)
    rw [List.cons_append, strFind, if_neg hb, ih hP2]
    simp

/-- The class-path loop skips leading entries without the marker. -/
theorem GetJBossPathFromClassPath_loop_skip (pre rest : List Str)
    (hpre : ∀ e ∈ pre, ¬ JBOSS_RUN_JAR <:+: e) :
    GetJBossPathFromClassPath.loop (pre ++ rest) = GetJBossPathFromClassPath.loop rest := by
  induction pre with
  | nil => rfl
  | cons e pre ih =>
    have he : strFind JBOSS_RUN_JAR e = none :=
      (strFind_eq_none_iff _ _).mpr (hpre e (List.mem_cons_self _ _))
    rw [List.cons_append, GetJBossPathFromClassPath.loop, he]
    exact ih (fun x hx => hpre x (List.mem_cons_of_mem _ hx))

/-- The space-delimited form, by induction on the token list: the tokens
before index `i` are skipped, token `i` sets the flag and token `i + 1` is
returned. -/
theorem loop_space_delimited (tokens : List Str) (key v : Str) (e : Bool) (i : Nat)
    (hkey : tokens[i]? = some key) (hnext : tokens[i + 1]? = some v)
    (hfirst : ∀ j, j < i → tokens[j]? ≠ some key)
    (hsp : ∀ j t, j < i → tokens[j]? = some t → ¬ (key ++ [' ']) <+: t)
    (heq : e = true → ∀ j t, j < i → tokens[j]? = some t → ¬ (key ++ ['=']) <+: t) :
    ParseOutCommandLineArg.loop key e true tokens false = v := by
  induction tokens generalizing i with
  | nil => simp at hkey
  | cons arg rest ih =>
    cases i with
    | zero =>
      have harg : arg = key := by simpa using hkey
      rw [loop_step, if_pos ⟨harg.symm, rfl⟩]
      cases rest with
      | nil => simp at hnext
      | cons w rest2 =>
        have hw : w = v := by simpa using hnext
        rw [loop_flag, hw]
    | succ n =>
      have harg : arg ≠ key := by
        have := hfirst 0 (Nat.succ_pos n)
        simpa using this
      rw [loop_skip key e true arg rest (fun _ => harg)
        (fun h => heq h 0 arg (Nat.succ_pos n) (by simp))
        (fun _ => hsp 0 arg (Nat.succ_pos n) (by simp))]
      refine ih n (by simpa using hkey) (by simpa using hnext) ?_ ?_ ?_
      · intro j hj
        have := hfirst (j + 1) (Nat.succ_lt_succ hj)
        simpa using this
      · intro j t hj ht
        exact hsp (j + 1) t (Nat.succ_lt_succ hj) (by simpa using ht)
      · intro h j t hj ht
        exact heq h (j + 1) t (Nat.succ_lt_succ hj) (by simpa using ht)

/-! ## Theorems on `ParseOutCommandLineArg` -/

/-- C1, as stated, fails: in `["-Dfoo=", "-Dfoo=bar"]` the first token whose
prefix is the key `-Dfoo` followed by `=` is `-Dfoo=`, whose remainder is
empty, yet the equals-delimited scan returns `bar`. -/
theorem ParseOutCommandLineArg_equals_first_prefix_counterexample :
    List.find? (fun t => decide (("-Dfoo".toList ++ ['=']) <+: t))
        ["-Dfoo=".toList, "-Dfoo=bar".toList] = some "-Dfoo=".toList ∧
      ParseOutCommandLineArg ["-Dfoo=".toList, "-Dfoo=bar".toList] "-Dfoo".toList true false =
        "bar".toList ∧
      ParseOutCommandLineArg ["-Dfoo=".toList, "-Dfoo=bar".toList] "-Dfoo".toList true false ≠
        "-Dfoo=".toList.drop ("-Dfoo".toList.length + 1) := by
  decide

/-- C1, amended: with `EqualsDelimited` on and `SpaceDelimited` off the result
is, for every token list and key, the remainder of the first token in list
order that is longer than `key` plus `=` (so that the remainder is not empty)
and whose prefix is `key` immediately followed by `=`; it is empty when there
is no such token. Tokens `["-Dfoo=bar"]` with key `-Dfoo` give `bar`. -/
theorem ParseOutCommandLineArg_equals_delimited :
    (∀ (tokens : List Str) (key : Str),
      ParseOutCommandLineArg tokens key true false =
        match tokens.find? (fun t =>
            decide (key.length + 1 < t.length ∧ (key ++ ['=']) <+: t)) with
        | some t => t.drop (key.length + 1)
        | none => []) ∧
      ParseOutCommandLineArg ["-Dfoo=bar".toList] "-Dfoo".toList true false = "bar".toList :=
  ⟨fun tokens key => loop_equals_only key tokens, by decide⟩

/-- C2: with `SpaceDelimited` on, when the first token equal to `key` is at
index `i`, a token `v` follows it at index `i + 1`, and no token before `i`
begins with `key` followed by a blank (or by `=` when `EqualsDelimited` is on
too), the result is `v` verbatim, whatever `v` looks like. Tokens
`["-c", "std.xml"]` with key `-c` give `std.xml`. -/
theorem ParseOutCommandLineArg_space_delimited :
    (∀ (tokens : List Str) (key v : Str) (e : Bool) (i : Nat),
      tokens[i]? = some key → tokens[i + 1]? = some v →
      (∀ j, j < i → tokens[j]? ≠ some key) →
      (∀ j t, j < i → tokens[j]? = some t → ¬ (key ++ [' ']) <+: t) →
      (e = true → ∀ j t, j < i → tokens[j]? = some t → ¬ (key ++ ['=']) <+: t) →
      ParseOutCommandLineArg tokens key e true = v) ∧
    ParseOutCommandLineArg ["-c".toList, "std.xml".toList] "-c".toList false true =
      "std.xml".toList :=
  ⟨fun tokens key v e i hkey hnext hfirst hsp heq =>
    loop_space_delimited tokens key v e i hkey hnext hfirst hsp heq, by decide⟩

/-- C2 at a concrete input: in `["-x=1", "-c", "-Dk=v", "z"]` the key `-c` is
first met at index 1 and the value is the next token `-Dk=v`, itself a
`key=value` flag starting with `-`. -/
theorem ParseOutCommandLineArg_space_delimited_witness :
    ParseOutCommandLineArg ["-x=1".toList, "-c".toList, "-Dk=v".toList, "z".toList]
      "-c".toList true true = "-Dk=v".toList :=
  ParseOutCommandLineArg_space_delimited.1
    ["-x=1".toList, "-c".toList, "-Dk=v".toList, "z".toList] "-c".toList "-Dk=v".toList
    true 1 (by decide) (by decide)
    (fun j hj => by
      have hj0 : j = 0 := by omega
      subst hj0; decide)
    (fun j t hj ht => by
      have hj0 : j = 0 := by omega
      subst hj0
      have ht' : t = "-x=1".toList := by simpa using ht.symm
      subst ht'; decide)
    (fun _ j t hj ht => by
      have hj0 : j = 0 := by omega
      subst hj0
      have ht' : t = "-x=1".toList := by simpa using ht.symm
      subst ht'; decide)

/-- C3: the result is the empty string whenever no token matches an enabled
form: no token equals `key` (when `SpaceDelimited` is on) and none begins with
`key` followed by `=` (when `EqualsDelimited` is on) or by a blank (when
`SpaceDelimited` is on). With both switches off it is empty for every input. -/
theorem ParseOutCommandLineArg_no_match :
    (∀ (tokens : List Str) (key : Str) (e s : Bool),
      (s = true → ∀ t ∈ tokens, t ≠ key) →
      (e = true → ∀ t ∈ tokens, ¬ (key ++ ['=']) <+: t) →
      (s = true → ∀ t ∈ tokens, ¬ (key ++ [' ']) <+: t) →
      ParseOutCommandLineArg tokens key e s = []) ∧
    (∀ (tokens : List Str) (key : Str), ParseOutCommandLineArg tokens key false false = []) :=
  ⟨fun tokens key e s hkey heq hsp => loop_no_match key e s tokens hkey heq hsp,
   fun tokens key => loop_no_match key false false tokens
     (fun h => absurd h Bool.false_ne_true) (fun h => absurd h Bool.false_ne_true)
     (fun h => absurd h Bool.false_ne_true)⟩

/-- C3 at a concrete input: no token of `["-Dfoo=bar", "-c", "x"]` matches the
key `-Dbar` in either form, and the result is empty. -/
theorem ParseOutCommandLineArg_no_match_witness :
    ParseOutCommandLineArg ["-Dfoo=bar".toList, "-c".toList, "x".toList] "-Dbar".toList
      true true = [] :=
  ParseOutCommandLineArg_no_match.1 ["-Dfoo=bar".toList, "-c".toList, "x".toList]
    "-Dbar".toList true true (fun _ => by decide) (fun _ => by decide) (fun _ => by decide)

/-! ## Theorems on `CreateJBossInstance` -/

/-- An empty class path holds no entry with the marker. -/
theorem GetJBossPathFromClassPath_nil : GetJBossPathFromClassPath [] = [] := by
  decide

/-- C4: the install path is the path derived from the `-classpath` value by
`GetJBossPathFromClassPath` when that is non-empty, otherwise the
`-Djboss.home.dir` value; exactly one JBoss instance with that install path is
appended when the chosen path is non-empty, and none when both are empty. -/
theorem CreateJBossInstance_install_path (L : List AppServerInstance) (params : List Str) :
    (GetJBossPathFromClassPath
        (ParseOutCommandLineArg params "-classpath".toList true true) ≠ [] →
      ∃ inst, CreateJBossInstance L params = L ++ [inst] ∧ inst.vendor = Vendor.JBoss ∧
        inst.installPath = GetJBossPathFromClassPath
          (ParseOutCommandLineArg params "-classpath".toList true true)) ∧
    (GetJBossPathFromClassPath
        (ParseOutCommandLineArg params "-classpath".toList true true) = [] →
      ParseOutCommandLineArg params "-Djboss.home.dir".toList true true ≠ [] →
      ∃ inst, CreateJBossInstance L params = L ++ [inst] ∧ inst.vendor = Vendor.JBoss ∧
        inst.installPath = ParseOutCommandLineArg params "-Djboss.home.dir".toList true true) ∧
    (GetJBossPathFromClassPath
        (ParseOutCommandLineArg params "-classpath".toList true true) = [] →
      ParseOutCommandLineArg params "-Djboss.home.dir".toList true true = [] →
      CreateJBossInstance L params = L) := by
  refine ⟨fun h => ?_, fun h1 h2 => ?_, fun h1 h2 => ?_⟩
  · have harg : ParseOutCommandLineArg params "-classpath".toList true true ≠ [] := by
      intro hc
      rw [hc] at h
      exact h GetJBossPathFromClassPath_nil
    unfold CreateJBossInstance
    dsimp only
    generalize ParseOutCommandLineArg params "-classpath".toList true true = arg at h harg ⊢
    generalize GetJBossPathFromClassPath arg = dir at h ⊢
    simp [List.length_pos, harg, h, JBossAppServerInstance, AppServerInstance.SetIsRunning]
  · unfold CreateJBossInstance
    dsimp only
    generalize ParseOutCommandLineArg params "-classpath".toList true true = arg at h1 ⊢
    generalize ParseOutCommandLineArg params "-Djboss.home.dir".toList true true = home at h2 ⊢
    by_cases harg : arg = [] <;>
      simp [List.length_pos, harg, h1, h2, JBossAppServerInstance,
        AppServerInstance.SetIsRunning]
  · unfold CreateJBossInstance
    dsimp only
    generalize ParseOutCommandLineArg params "-classpath".toList true true = arg at h1 ⊢
    generalize ParseOutCommandLineArg params "-Djboss.home.dir".toList true true = home at h2 ⊢
    by_cases harg : arg = [] <;> simp [List.length_pos, harg, h1, h2]

/-- C4 at a concrete input: a class path without the marker and a
`-Djboss.home.dir` value give one instance installed at that value. -/
theorem CreateJBossInstance_install_path_witness :
    ∃ inst, CreateJBossInstance []
        ["-classpath".toList, "/a/b.jar".toList, "-Djboss.home.dir=/opt/jb".toList] = [] ++ [inst] ∧
      inst.vendor = Vendor.JBoss ∧
      inst.installPath = ParseOutCommandLineArg
        ["-classpath".toList, "/a/b.jar".toList, "-Djboss.home.dir=/opt/jb".toList]
        "-Djboss.home.dir".toList true true :=
  (CreateJBossInstance_install_path []
    ["-classpath".toList, "/a/b.jar".toList, "-Djboss.home.dir=/opt/jb".toList]).2.1
    (by decide) (by decide)

/-- C5: for a token list that yields an instance, the config path is the
`-Djboss.server.data.dir` value verbatim when it is non-empty, whatever else is
present; otherwise, when the `-Dlogging.configuration` value is empty, it is
the `-c` value if non-empty, else the `-Djboss.server.name` value if non-empty,
else the literal `default`. -/
theorem CreateJBossInstance_config_priority (L : List AppServerInstance) (params : List Str)
    (inst : AppServerInstance) (h : CreateJBossInstance L params = L ++ [inst]) :
    (ParseOutCommandLineArg params "-Djboss.server.data.dir".toList true false ≠ [] →
      inst.configPath =
        ParseOutCommandLineArg params "-Djboss.server.data.dir".toList true false) ∧
    (ParseOutCommandLineArg params "-Djboss.server.data.dir".toList true false = [] →
      ParseOutCommandLineArg params "-Dlogging.configuration".toList true false = [] →
      inst.configPath =
        if ParseOutCommandLineArg params "-c".toList false true ≠ [] then
          ParseOutCommandLineArg params "-c".toList false true
        else if ParseOutCommandLineArg params "-Djboss.server.name".toList true false ≠ [] then
          ParseOutCommandLineArg params "-Djboss.server.name".toList true false
        else "default".toList) := by
  unfold CreateJBossInstance at h
  dsimp only at h
  obtain ⟨-, hx⟩ := appended_iff_got _ _ _ _ h
  subst hx
  generalize ParseOutCommandLineArg params "-Djboss.server.data.dir".toList true false = dom
  generalize ParseOutCommandLineArg params "-Dlogging.configuration".toList true false = std
  generalize ParseOutCommandLineArg params "-c".toList false true = dashC
  generalize ParseOutCommandLineArg params "-Djboss.server.name".toList true false = name
  refine ⟨fun hdom => ?_, fun hdom hstd => ?_⟩
  · simp [JBossAppServerInstance, AppServerInstance.SetIsRunning, hdom]
  · subst hdom hstd
    by_cases hc : dashC = [] <;> by_cases hn : name = [] <;>
      simp [JBossAppServerInstance, AppServerInstance.SetIsRunning, hc, hn]

/-- C5 at a concrete input: `-Djboss.server.data.dir` wins although
`-Dlogging.configuration`, `-c` and `-Djboss.server.name` are present. -/
theorem CreateJBossInstance_config_priority_witness :
    ((JBossAppServerInstance "/opt/jb".toList "/srv/data".toList [] []).SetIsRunning
        true).configPath =
      ParseOutCommandLineArg
        ["-Djboss.home.dir=/opt/jb".toList, "-Djboss.server.data.dir=/srv/data".toList,
          "-Dlogging.configuration=l.p".toList, "-c".toList, "s.xml".toList,
          "-Djboss.server.name=n".toList]
        "-Djboss.server.data.dir".toList true false :=
  (CreateJBossInstance_config_priority []
    ["-Djboss.home.dir=/opt/jb".toList, "-Djboss.server.data.dir=/srv/data".toList,
      "-Dlogging.configuration=l.p".toList, "-c".toList, "s.xml".toList,
      "-Djboss.server.name=n".toList]
    ((JBossAppServerInstance "/opt/jb".toList "/srv/data".toList [] []).SetIsRunning true)
    (by decide)).1 (by decide)

/-- C6: for a token list with an empty `-Djboss.server.data.dir` value and a
non-empty `-Dlogging.configuration` value, the effective config directory is
the `-Djboss.server.config.dir` value if non-empty, else the
`-Djboss.server.base.dir` value plus `/configuration`, else the
`-Djboss.home.dir` value plus `/standalone/configuration`; the config path of
the instance is that directory, the separator `/` and the `-c` relative file
name (nothing after the separator when there is no `-c` value). -/
theorem CreateJBossInstance_standalone_config (L : List AppServerInstance)
    (params : List Str) (inst : AppServerInstance)
    (h : CreateJBossInstance L params = L ++ [inst])
    (hdom : ParseOutCommandLineArg params "-Djboss.server.data.dir".toList true false = [])
    (hstd : ParseOutCommandLineArg params "-Dlogging.configuration".toList true false ≠ []) :
    inst.configPath =
      (if ParseOutCommandLineArg params "-Djboss.server.config.dir".toList true false ≠ [] then
          ParseOutCommandLineArg params "-Djboss.server.config.dir".toList true false
        else if
            ParseOutCommandLineArg params "-Djboss.server.base.dir".toList true false ≠ [] then
          ParseOutCommandLineArg params "-Djboss.server.base.dir".toList true false ++
            "/configuration".toList
        else
          ParseOutCommandLineArg params "-Djboss.home.dir".toList true false ++
            "/standalone/configuration".toList) ++
        "/".toList ++ ParseOutCommandLineArg params "-c".toList false true := by
  unfold CreateJBossInstance at h
  dsimp only at h
  obtain ⟨-, hx⟩ := appended_iff_got _ _ _ _ h
  subst hx
  generalize ParseOutCommandLineArg params "-Djboss.server.data.dir".toList true false = dom
    at hdom ⊢
  generalize ParseOutCommandLineArg params "-Dlogging.configuration".toList true false = std
    at hstd ⊢
  generalize ParseOutCommandLineArg params "-c".toList false true = dashC
  generalize ParseOutCommandLineArg params "-Djboss.server.config.dir".toList true false = confDir
  generalize ParseOutCommandLineArg params "-Djboss.server.base.dir".toList true false = baseDir
  generalize ParseOutCommandLineArg params "-Djboss.home.dir".toList true false = homeDir
  subst hdom
  by_cases hc : dashC = [] <;> by_cases h1 : confDir = [] <;> by_cases h2 : baseDir = [] <;>
    simp [JBossAppServerInstance, AppServerInstance.SetIsRunning, hstd, hc, h1, h2,
      List.length_pos]

/-- C6 at a concrete input: with `-Djboss.server.base.dir=/b` and `-c s.xml`
the config path is `/b/configuration/s.xml`. -/
theorem CreateJBossInstance_standalone_config_witness :
    ((JBossAppServerInstance "/opt/jb".toList "/b/configuration/s.xml".toList []
        "standalone".toList).SetIsRunning true).configPath =
      "/b/configuration/s.xml".toList :=
  CreateJBossInstance_standalone_config []
    ["-Djboss.home.dir=/opt/jb".toList, "-Dlogging.configuration=l.p".toList,
      "-Djboss.server.base.dir=/b".toList, "-c".toList, "s.xml".toList]
    ((JBossAppServerInstance "/opt/jb".toList "/b/configuration/s.xml".toList []
      "standalone".toList).SetIsRunning true)
    (by decide) (by decide) (by decide)

/-- C7, as stated, fails: the token list
`["-Djboss.home.dir=/opt/jb", "-Djboss.socket.binding.port-offset=100"]` yields
an instance and its `-Djboss.socket.binding.port-offset` value is `100`, yet
the port offset of the instance is empty. -/
theorem CreateJBossInstance_port_offset_counterexample :
    CreateJBossInstance []
        ["-Djboss.home.dir=/opt/jb".toList,
          "-Djboss.socket.binding.port-offset=100".toList] =
      [(JBossAppServerInstance "/opt/jb".toList "default".toList [] []).SetIsRunning true] ∧
    ParseOutCommandLineArg
        ["-Djboss.home.dir=/opt/jb".toList,
          "-Djboss.socket.binding.port-offset=100".toList]
        "-Djboss.socket.binding.port-offset".toList true false = "100".toList ∧
    ((JBossAppServerInstance "/opt/jb".toList "default".toList [] []).SetIsRunning
        true).portOffset ≠ "100".toList := by
  decide

/-- C7, amended: for a token list that yields an instance, the port offset is
the `-Djboss.socket.binding.port-offset` value when that is non-empty and the
standalone branch is taken (the `-Djboss.server.data.dir` value is empty and
the `-Dlogging.configuration` value is not); otherwise it is the
`-Djboss.service.binding.set` value, which is empty when there is none. -/
theorem CreateJBossInstance_port_offset (L : List AppServerInstance) (params : List Str)
    (inst : AppServerInstance) (h : CreateJBossInstance L params = L ++ [inst]) :
    inst.portOffset =
      if ParseOutCommandLineArg params "-Djboss.server.data.dir".toList true false = [] ∧
          ParseOutCommandLineArg params "-Dlogging.configuration".toList true false ≠ [] ∧
          ParseOutCommandLineArg params
            "-Djboss.socket.binding.port-offset".toList true false ≠ [] then
        ParseOutCommandLineArg params "-Djboss.socket.binding.port-offset".toList true false
      else ParseOutCommandLineArg params "-Djboss.service.binding.set".toList true false := by
  unfold CreateJBossInstance at h
  dsimp only at h
  obtain ⟨-, hx⟩ := appended_iff_got _ _ _ _ h
  subst hx
  generalize ParseOutCommandLineArg params "-Djboss.server.data.dir".toList true false = dom
  generalize ParseOutCommandLineArg params "-Dlogging.configuration".toList true false = std
  generalize ParseOutCommandLineArg params "-c".toList false true = dashC
  generalize ParseOutCommandLineArg params "-Djboss.server.name".toList true false = name
  generalize ParseOutCommandLineArg params
    "-Djboss.socket.binding.port-offset".toList true false = off
  generalize ParseOutCommandLineArg params "-Djboss.service.binding.set".toList true false = set
  by_cases hd : dom = [] <;> by_cases hs : std = [] <;> by_cases ho : off = [] <;>
    by_cases hc : dashC = [] <;> by_cases hn : name = [] <;>
    simp [JBossAppServerInstance, AppServerInstance.SetIsRunning, hd, hs, ho, hc, hn]

/-- C7, amended, at a concrete input: in the standalone branch the
`-Djboss.socket.binding.port-offset` value `100` is the port offset. -/
theorem CreateJBossInstance_port_offset_witness :
    ((JBossAppServerInstance "/opt/jb".toList "/opt/jb/standalone/configuration/".toList
        "100".toList "standalone".toList).SetIsRunning true).portOffset = "100".toList :=
  CreateJBossInstance_port_offset []
    ["-Djboss.home.dir=/opt/jb".toList, "-Dlogging.configuration=l.p".toList,
      "-Djboss.socket.binding.port-offset=100".toList,
      "-Djboss.service.binding.set=ports-01".toList]
    ((JBossAppServerInstance "/opt/jb".toList "/opt/jb/standalone/configuration/".toList
      "100".toList "standalone".toList).SetIsRunning true)
    (by decide)

/-! ## Theorems on `GetJBossPathFromClassPath` -/

/-- C8: when the first entry of the class path that contains `/bin/run.jar`
is `P` followed by `/bin/run.jar`, with no marker inside `P`, the result is `P`
followed by `/`: the trailing separator is kept. The entry
`/opt/JBoss-4.2.1/bin/run.jar` yields `/opt/JBoss-4.2.1/`. -/
theorem GetJBossPathFromClassPath_keeps_separator :
    (∀ (classpath : Str) (pre post : List Str) (P : Str),
      StrTokenize classpath PATH_SEPERATOR = pre ++ (P ++ JBOSS_RUN_JAR) :: post →
      (∀ e ∈ pre, ¬ JBOSS_RUN_JAR <:+: e) →
      ¬ JBOSS_RUN_JAR <:+: P →
      GetJBossPathFromClassPath classpath = P ++ "/".toList) ∧
    GetJBossPathFromClassPath "/opt/JBoss-4.2.1/bin/run.jar".toList =
      "/opt/JBoss-4.2.1/".toList := by
  refine ⟨fun classpath pre post P hparts hpre hP => ?_, by decide⟩
  unfold GetJBossPathFromClassPath
  rw [hparts, GetJBossPathFromClassPath_loop_skip pre _ hpre, GetJBossPathFromClassPath.loop,
    strFind_marker_append P hP]
  have hm : JBOSS_RUN_JAR = "/".toList ++ "bin/run.jar".toList := by decide
  rw [hm, ← List.append_assoc]
  have hl : P.length + 1 = (P ++ "/".toList).length := by simp
  show List.take (P.length + 1) (P ++ "/".toList ++ "bin/run.jar".toList) = P ++ "/".toList
  rw [hl, List.take_left]

/-- C8 at a concrete input: the second entry of `/a/b.jar:/opt/j/bin/run.jar:/c`
is the first one with the marker and the result is `/opt/j/`. -/
theorem GetJBossPathFromClassPath_keeps_separator_witness :
    GetJBossPathFromClassPath "/a/b.jar:/opt/j/bin/run.jar:/c".toList = "/opt/j".toList ++ "/".toList :=
  GetJBossPathFromClassPath_keeps_separator.1 "/a/b.jar:/opt/j/bin/run.jar:/c".toList
    ["/a/b.jar".toList] ["/c".toList] "/opt/j".toList (by decide) (by decide) (by decide)

/-- C9 fails on the code: no entry of the class path
`/opt/jboss/bin/run.jar.bak` ends with `/bin/run.jar`, yet the result is
`/opt/jboss/` and not the empty string, because the entry is searched for the
marker anywhere in it. -/
theorem GetJBossPathFromClassPath_accepts_inner_marker :
    (∀ e ∈ StrTokenize "/opt/jboss/bin/run.jar.bak".toList PATH_SEPERATOR,
      ¬ JBOSS_RUN_JAR <:+ e) ∧
    GetJBossPathFromClassPath "/opt/jboss/bin/run.jar.bak".toList = "/opt/jboss/".toList ∧
    GetJBossPathFromClassPath "/opt/jboss/bin/run.jar.bak".toList ≠ [] := by
  decide

/-! ## Theorems on `CreateTomcatInstance` -/

/-- C10: a Tomcat instance is appended if and only if the `-Dcatalina.home`
value is non-empty (otherwise the list is left as it is); the install path of
the appended instance is the `-Dcatalina.home` value and its config path is the
`-Dcatalina.base` value when that is non-empty, and the install path
otherwise. -/
theorem CreateTomcatInstance_spec (L : List AppServerInstance) (params : List Str) :
    ((∃ inst, CreateTomcatInstance L params = L ++ [inst]) ↔
      ParseOutCommandLineArg params "-Dcatalina.home".toList true true ≠ []) ∧
    (ParseOutCommandLineArg params "-Dcatalina.home".toList true true = [] →
      CreateTomcatInstance L params = L) ∧
    (∀ inst, CreateTomcatInstance L params = L ++ [inst] →
      inst.vendor = Vendor.Tomcat ∧
      inst.installPath = ParseOutCommandLineArg params "-Dcatalina.home".toList true true ∧
      inst.configPath =
        if ParseOutCommandLineArg params "-Dcatalina.base".toList true true ≠ [] then
          ParseOutCommandLineArg params "-Dcatalina.base".toList true true
        else inst.installPath) := by
  unfold CreateTomcatInstance
  dsimp only
  generalize ParseOutCommandLineArg params "-Dcatalina.home".toList true true = home
  generalize ParseOutCommandLineArg params "-Dcatalina.base".toList true true = base
  refine ⟨⟨?_, fun h => ?_⟩, fun h => ?_, fun inst h => ?_⟩
  · rintro ⟨inst, h⟩
    have hg := (appended_iff_got _ _ _ _ h).1
    intro hc
    simp [hc] at hg
  · exact ⟨_, by simp [h]; rfl⟩
  · simp [h]
  · obtain ⟨-, hx⟩ := appended_iff_got _ _ _ _ h
    subst hx
    by_cases hb : base = [] <;>
      simp [TomcatAppServerInstance, AppServerInstance.SetIsRunning, hb]

/-- C10 at a concrete input: with `-Dcatalina.home=/opt/tc` and no
`-Dcatalina.base` the instance has `/opt/tc` as install and config path. -/
theorem CreateTomcatInstance_spec_witness :
    CreateTomcatInstance [] ["-Dcatalina.home=/opt/tc".toList] =
      [(TomcatAppServerInstance "/opt/tc".toList "/opt/tc".toList).SetIsRunning true] ∧
    ((TomcatAppServerInstance "/opt/tc".toList "/opt/tc".toList).SetIsRunning
        true).installPath = "/opt/tc".toList ∧
    ((TomcatAppServerInstance "/opt/tc".toList "/opt/tc".toList).SetIsRunning
        true).configPath = "/opt/tc".toList :=
  ⟨by decide,
   ((CreateTomcatInstance_spec [] ["-Dcatalina.home=/opt/tc".toList]).2.2
      ((TomcatAppServerInstance "/opt/tc".toList "/opt/tc".toList).SetIsRunning true)
      (by decide)).2⟩

/-! ## Lemmas on the token lookup -/

/-- The lookup `CheckProcessCmdLineArgExists` is membership of the whole
token. -/
theorem CheckProcessCmdLineArgExists_iff_mem (params : List Str) (value : Str) :
    CheckProcessCmdLineArgExists params value = true ↔ value ∈ params := by
  induction params with
  | nil => simp [CheckProcessCmdLineArgExists]
  | cons pos rest ih =>
    rw [CheckProcessCmdLineArgExists]
    by_cases h : value = pos
    · simp [h]
    · simp [h, ih]

/-- Once `found` is set the loop of `GetArgNumber` changes nothing. -/
theorem GetArgNumber_loop_found (value : Str) (params : List Str) (retval : Int) :
    GetArgNumber.loop value params retval true = (retval, true) := by
  cases params <;> simp [GetArgNumber.loop]

/-- The loop of `GetArgNumber` stops at the first token equal to `value`. -/
theorem GetArgNumber_loop_first (value : Str) (params : List Str) (i : Nat) (retval : Int)
    (h : params[i]? = some value) (hfirst : ∀ j, j < i → params[j]? ≠ some value) :
    GetArgNumber.loop value params retval false = (retval + 1 + i, true) := by
  induction params generalizing i retval with
  | nil => simp at h
  | cons pos rest ih =>
    cases i with
    | zero =>
      have hp : pos = value := by simpa using h
      rw [GetArgNumber.loop]
      simp [hp, GetArgNumber_loop_found]
    | succ n =>
      have hp : ¬ value = pos := by
        have := hfirst 0 (Nat.succ_pos n)
        intro hc
        apply this
        simp [hc]
      rw [GetArgNumber.loop]
      simp only [Bool.false_eq_true, if_false, if_neg hp]
      rw [ih n (retval + 1) (by simpa using h)
        (fun j hj => by simpa using hfirst (j + 1) (Nat.succ_lt_succ hj))]
      simp
      omega

/-- The loop of `GetArgNumber` leaves `found` clear when no token is equal to
`value`. -/
theorem GetArgNumber_loop_absent (value : Str) (params : List Str) (retval : Int)
    (h : value ∉ params) : (GetArgNumber.loop value params retval false).2 = false := by
  induction params generalizing retval with
  | nil => simp [GetArgNumber.loop]
  | cons pos rest ih =>
    have hp : ¬ value = pos := fun hc => h (by simp [hc])
    rw [GetArgNumber.loop]
    simp only [Bool.false_eq_true, if_false, if_neg hp]
    exact ih (retval + 1) (fun hc => h (List.mem_cons_of_mem _ hc))

/-- The result of `GetArgNumber` is the index of the first token equal to
`value`. -/
theorem GetArgNumber_first (value : Str) (params : List Str) (i : Nat)
    (h : params[i]? = some value) (hfirst : ∀ j, j < i → params[j]? ≠ some value) :
    GetArgNumber params value = (i : Int) := by
  unfold GetArgNumber
  rw [GetArgNumber_loop_first value params i (-1) h hfirst]
  simp

/-- The result of `GetArgNumber` is `-1` when no token is equal to `value`. -/
theorem GetArgNumber_absent (value : Str) (params : List Str) (h : value ∉ params) :
    GetArgNumber params value = -1 := by
  unfold GetArgNumber
  simp [GetArgNumber_loop_absent value params (-1) h]

/-! ## Lemmas on `find_last_of` and `GetParentDirectory` -/

/-- No position is found in a string without a character of `chars`. -/
theorem find_last_of_none (chars s : Str) (h : ∀ c ∈ s, c ∉ chars) :
    find_last_of chars s = none := by
  induction s with
  | nil => rfl
  | cons c cs ih =>
    rw [find_last_of, ih (fun x hx => h x (List.mem_cons_of_mem _ hx))]
    simp [h c (List.mem_cons_self _ _)]

/-- The last position of a character of `chars` in `Y ++ c :: s`, where `c` is
one and `s` has none, is the length of `Y`. -/
theorem find_last_of_append (chars Y : Str) (c : Char) (s : Str) (hc : c ∈ chars)
    (hs : ∀ x ∈ s, x ∉ chars) : find_last_of chars (Y ++ c :: s) = some Y.length := by
  induction Y with
  | nil =>
    rw [List.nil_append, find_last_of, find_last_of_none chars s hs]
    simp [hc]
  | cons y Y ih =>
    rw [List.cons_append, find_last_of, ih]
    rfl

/-- The last character of `pre ++ s` is the last character of a non-empty
`s`. -/
theorem last_char_append (pre s : Str) (hs : s ≠ []) :
    (pre ++ s)[(pre ++ s).length - 1]? = some (s.getLast hs) := by
  rw [← List.getLast?_eq_getElem?, List.getLast?_append_of_ne_nil pre hs,
    List.getLast?_eq_getLast s hs]

/-- The loop of `GetParentDirectory` removes one segment for each level. -/
theorem GetParentDirectory_loop_segments (X : Str) (segs : List Str)
    (h : ∀ s ∈ segs, '/' ∉ s) :
    GetParentDirectory.loop segs.length (X ++ (segs.map (fun s => '/' :: s)).flatten) = X := by
  induction segs using List.reverseRecOn with
  | nil => simp [GetParentDirectory.loop]
  | append_singleton init last ih =>
    have hlast : ∀ x ∈ last, x ∉ "/".toList := by
      intro x hx hc
      have hx2 : x = '/' := by simpa using hc
      exact h last (by simp) (hx2 ▸ hx)
    have hpath : X ++ ((init ++ [last]).map (fun s => '/' :: s)).flatten =
        (X ++ (init.map (fun s => '/' :: s)).flatten) ++ '/' :: last := by
      simp [List.append_assoc]
    rw [List.length_append, List.length_singleton, GetParentDirectory.loop, hpath,
      find_last_of_append "/".toList _ '/' last (by decide) hlast]
    simp only [List.take_left]
    exact ih (fun s hs => h s (List.mem_append_left _ hs))

/-- The parent directory computation removes the trailing segments of a path
whose segments are non-empty and free of `/`. -/
theorem GetParentDirectory_segments (X : Str) (segs : List Str) (hne : segs ≠ [])
    (h : ∀ s ∈ segs, s ≠ [] ∧ '/' ∉ s) :
    GetParentDirectory (X ++ (segs.map (fun s => '/' :: s)).flatten) segs.length = some X := by
  have hl := List.getLast_mem hne
  have hlast_ne : segs.getLast hne ≠ [] := (h _ hl).1
  have hpath : X ++ (segs.map (fun s => '/' :: s)).flatten =
      (X ++ ((segs.dropLast).map (fun s => '/' :: s)).flatten ++ ['/']) ++ segs.getLast hne := by
    conv_lhs => rw [← List.dropLast_append_getLast hne]
    simp [List.append_assoc]
  have hchar := last_char_append
    (X ++ ((segs.dropLast).map (fun s => '/' :: s)).flatten ++ ['/']) (segs.getLast hne) hlast_ne
  rw [← hpath] at hchar
  have hnot : ¬ '/' = (segs.getLast hne).getLast hlast_ne := by
    intro hc
    exact (h _ hl).2 (hc ▸ List.getLast_mem hlast_ne)
  unfold GetParentDirectory
  rw [hchar]
  simp only [if_neg hnot]
  rw [GetParentDirectory_loop_segments X segs (fun s hs => (h s hs).2)]

/-! ## Lemmas on the five-segment match -/

/-- A position found by `find_last_of` holds a character of `chars` and no
character of `chars` comes after it. -/
theorem find_last_of_some (chars s : Str) (pos : Nat) (h : find_last_of chars s = some pos) :
    ∃ c, c ∈ chars ∧ s = s.take pos ++ c :: s.drop (pos + 1) ∧
      ∀ x ∈ s.drop (pos + 1), x ∉ chars := by
  induction s generalizing pos with
  | nil => simp [find_last_of] at h
  | cons a cs ih =>
    rw [find_last_of] at h
    cases hrec : find_last_of chars cs with
    | some q =>
      rw [hrec] at h
      have hq : pos = q + 1 := by simpa using h.symm
      subst hq
      obtain ⟨c, hc, heq, hafter⟩ := ih q hrec
      refine ⟨c, hc, ?_, ?_⟩
      · simp only [List.take_succ_cons, List.drop_succ_cons, List.cons_append]
        rw [← heq]
      · simpa using hafter
    | none =>
      rw [hrec] at h
      by_cases ha : a ∈ chars
      · simp [ha] at h
        subst h
        refine ⟨a, ha, by simp, ?_⟩
        intro x hx hxc
        have hx2 : x ∈ cs := by simpa using hx
        have : find_last_of chars cs ≠ none := by
          clear ih hrec hx
          induction cs with
          | nil => simp at hx2
          | cons b bs ihb =>
            rw [find_last_of]
            cases hb : find_last_of chars bs with
            | some r => simp
            | none =>
              rcases List.mem_cons.mp hx2 with hxb | hxb
              · subst hxb; simp [hxc]
              · exact absurd hb (ihb hxb)
        exact this hrec
      · simp [ha] at h

/-- Cutting `Y ++ '/' :: s` at the last `/`, when `s` has none, gives `Y` and
`s`. -/
theorem splitAtLastSlash_append (Y s : Str) (hs : '/' ∉ s) :
    splitAtLastSlash (Y ++ '/' :: s) = some (Y, s) := by
  have hs2 : ∀ x ∈ s, x ∉ "/".toList := by
    intro x hx hc
    have hx2 : x = '/' := by simpa using hc
    exact hs (hx2 ▸ hx)
  unfold splitAtLastSlash
  rw [find_last_of_append "/".toList Y '/' s (by decide) hs2]
  simp

/-- A cut at the last `/` splits the text around a `/` and leaves no `/` in
the second part. -/
theorem splitAtLastSlash_some (text a b : Str) (h : splitAtLastSlash text = some (a, b)) :
    text = a ++ '/' :: b ∧ '/' ∉ b := by
  unfold splitAtLastSlash at h
  cases hf : find_last_of "/".toList text with
  | none => rw [hf] at h; simp at h
  | some pos =>
    rw [hf] at h
    simp only [Option.some.injEq, Prod.mk.injEq] at h
    obtain ⟨c, hc, heq, hafter⟩ := find_last_of_some _ _ _ hf
    have hc2 : c = '/' := by simpa using hc
    subst hc2
    rw [h.1, h.2] at heq
    rw [h.2] at hafter
    exact ⟨heq, fun hb => hafter _ hb (by decide)⟩

/-- The five-segment match of a text written with its five segments. -/
theorem ReturnMatch_segments (A P Q S C : Str) (hP : '/' ∉ P) (hQ : '/' ∉ Q) (hS : '/' ∉ S)
    (hC : '/' ∉ C) :
    SCXRegex.ReturnMatch ((((A ++ '/' :: P) ++ '/' :: Q) ++ '/' :: S) ++ '/' :: C) =
      some [(((A ++ '/' :: P) ++ '/' :: Q) ++ '/' :: S) ++ '/' :: C, A, P, Q, S, C] := by
  unfold SCXRegex.ReturnMatch
  simp only [splitAtLastSlash_append _ C hC, splitAtLastSlash_append _ S hS,
    splitAtLastSlash_append _ Q hQ, splitAtLastSlash_append _ P hP]

/-- A text with a five-segment match is its five segments joined by `/`, the
last four without `/`. -/
theorem ReturnMatch_some (text : Str) (v : List Str) (h : SCXRegex.ReturnMatch text = some v) :
    ∃ A P Q S C, v = [text, A, P, Q, S, C] ∧ '/' ∉ P ∧ '/' ∉ Q ∧ '/' ∉ S ∧ '/' ∉ C ∧
      text = (((A ++ '/' :: P) ++ '/' :: Q) ++ '/' :: S) ++ '/' :: C := by
  unfold SCXRegex.ReturnMatch at h
  cases h5 : splitAtLastSlash text with
  | none => simp [h5] at h
  | some r5 =>
    obtain ⟨rest4, seg5⟩ := r5
    simp only [h5] at h
    cases h4 : splitAtLastSlash rest4 with
    | none => simp [h4] at h
    | some r4 =>
      obtain ⟨rest3, seg4⟩ := r4
      simp only [h4] at h
      cases h3 : splitAtLastSlash rest3 with
      | none => simp [h3] at h
      | some r3 =>
        obtain ⟨rest2, seg3⟩ := r3
        simp only [h3] at h
        cases h2 : splitAtLastSlash rest2 with
        | none => simp [h2] at h
        | some r2 =>
          obtain ⟨seg1, seg2⟩ := r2
          simp only [h2] at h
          simp only [Option.some.injEq] at h
          obtain ⟨e5, n5⟩ := splitAtLastSlash_some _ _ _ h5
          obtain ⟨e4, n4⟩ := splitAtLastSlash_some _ _ _ h4
          obtain ⟨e3, n3⟩ := splitAtLastSlash_some _ _ _ h3
          obtain ⟨e2, n2⟩ := splitAtLastSlash_some _ _ _ h2
          refine ⟨seg1, seg2, seg3, seg4, seg5, h.symm, n2, n3, n4, n5, ?_⟩
          rw [← e2, ← e3, ← e4, ← e5]

/-- The final path segment of `X ++ '/' :: seg`, when `seg` has no `/`, is
`seg`. -/
theorem GetFilename_append (X seg : Str) (hs : '/' ∉ seg) :
    SCXFilePath.GetFilename (X ++ '/' :: seg) = seg := by
  have hs2 : ∀ x ∈ seg, x ∉ "/".toList := by
    intro x hx hc
    have hx2 : x = '/' := by simpa using hc
    exact hs (hx2 ▸ hx)
  unfold SCXFilePath.GetFilename
  rw [find_last_of_append "/".toList X '/' seg (by decide) hs2]
  simp

/-! ## Lemmas on `CreateWebSphereInstance` -/

/-- Without the positional parameters no WebSphere instance is appended. -/
theorem CreateWebSphereInstance_no_params (L : List AppServerInstance) (params : List Str)
    (h : GetArgNumber params WEBSPHERE_RUNTIME_CLASS < 0 ∨
      params.length < (GetArgNumber params WEBSPHERE_RUNTIME_CLASS).toNat + 5) :
    CreateWebSphereInstance L params = L := by
  unfold CreateWebSphereInstance
  dsimp only
  generalize GetArgNumber params WEBSPHERE_RUNTIME_CLASS = n at h ⊢
  rcases h with h | h
  · have hn : ¬ n ≥ 0 := by omega
    simp [hn]
  · have hl : ¬ params.length ≥ n.toNat + 5 := by omega
    by_cases hn : n ≥ 0 <;> simp [hn, hl]

/-- With the runtime-class marker first met at index `i` and four tokens after
it, the appended instance is decided by the install-path resolution. -/
theorem CreateWebSphereInstance_with_params (L : List AppServerInstance) (params : List Str)
    (i : Nat) (hi : params[i]? = some WEBSPHERE_RUNTIME_CLASS)
    (hfirst : ∀ j, j < i → params[j]? ≠ some WEBSPHERE_RUNTIME_CLASS)
    (hlen : i + 5 ≤ params.length) :
    CreateWebSphereInstance L params =
      if CreateWebSphereInstance.accepted
          (ParseOutCommandLineArg params "-Dosgi.configuration.area".toList true true) then
        L ++ [(WebSphereAppServerInstance
          (((SCXRegex.ReturnMatch (ParseOutCommandLineArg params
              "-Dosgi.configuration.area".toList true true)).getD []).getD 1 [] ++ "/".toList ++
            ((SCXRegex.ReturnMatch (ParseOutCommandLineArg params
              "-Dosgi.configuration.area".toList true true)).getD []).getD 2 [] ++ "/".toList ++
            ((SCXRegex.ReturnMatch (ParseOutCommandLineArg params
              "-Dosgi.configuration.area".toList true true)).getD []).getD 3 [] ++ "/".toList ++
            ((SCXRegex.ReturnMatch (ParseOutCommandLineArg params
              "-Dosgi.configuration.area".toList true true)).getD []).getD 4 [])
          (params.getD (i + 2) []) (params.getD (i + 3) [])
          (((SCXRegex.ReturnMatch (ParseOutCommandLineArg params
              "-Dosgi.configuration.area".toList true true)).getD []).getD 2 [])
          (params.getD (i + 4) [])).SetIsRunning true]
      else if ParseOutCommandLineArg params "-Dserver.root".toList true true ≠ [] then
        L ++ [(WebSphereAppServerInstance
          (ParseOutCommandLineArg params "-Dserver.root".toList true true)
          (params.getD (i + 2) []) (params.getD (i + 3) [])
          (SCXFilePath.GetFilename
            (ParseOutCommandLineArg params "-Dserver.root".toList true true))
          (params.getD (i + 4) [])).SetIsRunning true]
      else L := by
  unfold CreateWebSphereInstance
  dsimp only
  rw [GetArgNumber_first WEBSPHERE_RUNTIME_CLASS params i hi hfirst]
  generalize ParseOutCommandLineArg params "-Dosgi.configuration.area".toList true true = osgi
  generalize ParseOutCommandLineArg params "-Dserver.root".toList true true = root
  have h0 : (i : Int) ≥ 0 := Int.ofNat_nonneg i
  have hl : params.length ≥ (i : Int).toNat + 5 := by simpa using hlen
  rw [if_pos h0, if_pos hl]
  simp only [Int.toNat_ofNat]
  by_cases ha : CreateWebSphereInstance.accepted osgi = true
  · simp [ha]
  · by_cases hr : root = []
    · simp [ha, hr]
    · simp [ha, hr]

/-- Without the runtime-class marker no WebSphere instance is appended. -/
theorem CreateWebSphereInstance_absent (L : List AppServerInstance) (params : List Str)
    (hm : WEBSPHERE_RUNTIME_CLASS ∉ params) : CreateWebSphereInstance L params = L :=
  CreateWebSphereInstance_no_params L params (Or.inl (by
    rw [GetArgNumber_absent _ _ hm]
    decide))

/-- With fewer than four tokens after the first runtime-class marker no
WebSphere instance is appended. -/
theorem CreateWebSphereInstance_short (L : List AppServerInstance) (params : List Str)
    (i : Nat) (hi : params[i]? = some WEBSPHERE_RUNTIME_CLASS)
    (hfirst : ∀ j, j < i → params[j]? ≠ some WEBSPHERE_RUNTIME_CLASS)
    (hlen : params.length < i + 5) : CreateWebSphereInstance L params = L :=
  CreateWebSphereInstance_no_params L params (Or.inr (by
    rw [GetArgNumber_first _ _ i hi hfirst]
    simp only [Int.toNat_ofNat]
    omega))

/-- A list is not itself with one more entry. -/
theorem ne_append_singleton {α : Type} (L : List α) (x : α) : L ≠ L ++ [x] := by
  intro h
  have hlen := congrArg List.length h
  simp at hlen

/-- A token that occurs in the list has a first occurrence. -/
theorem exists_first_index (value : Str) (params : List Str) (h : value ∈ params) :
    ∃ i : Nat, params[i]? = some value ∧ ∀ j : Nat, j < i → params[j]? ≠ some value := by
  induction params with
  | nil => simp at h
  | cons pos rest ih =>
    by_cases hp : pos = value
    · exact ⟨0, by simp [hp], fun j hj => absurd hj (Nat.not_lt_zero j)⟩
    · have hr : value ∈ rest := by
        rcases List.mem_cons.mp h with h1 | h1
        · exact absurd h1.symm hp
        · exact h1
      obtain ⟨i, hi, hfirst⟩ := ih hr
      refine ⟨i + 1, ?_, ?_⟩
      · simpa using hi
      · intro j hj
        cases j with
        | zero => simpa using hp
        | succ k => simpa using hfirst k (Nat.lt_of_succ_lt_succ hj)

/-- An appended WebSphere instance needs the runtime-class marker and four
tokens after its first occurrence. -/
theorem CreateWebSphereInstance_appended_params (L : List AppServerInstance)
    (params : List Str) (inst : AppServerInstance)
    (h : CreateWebSphereInstance L params = L ++ [inst]) :
    ∃ i : Nat, params[i]? = some WEBSPHERE_RUNTIME_CLASS ∧
      (∀ j : Nat, j < i → params[j]? ≠ some WEBSPHERE_RUNTIME_CLASS) ∧
      i + 5 ≤ params.length := by
  by_cases hm : WEBSPHERE_RUNTIME_CLASS ∈ params
  · obtain ⟨i, hi, hfirst⟩ := exists_first_index _ _ hm
    refine ⟨i, hi, hfirst, ?_⟩
    by_contra hlen
    have hno := CreateWebSphereInstance_short L params i hi hfirst (by omega)
    rw [hno] at h
    exact ne_append_singleton L inst h
  · have hno := CreateWebSphereInstance_absent L params hm
    rw [hno] at h
    exact absurd h (ne_append_singleton L inst)

/-- A read by `getD` within the list is the token at that index. -/
theorem getD_in_range (params : List Str) (k : Nat) (h : k < params.length) :
    params[k]? = some (params.getD k []) := by
  simp [List.getD_eq_getElem?_getD, List.getElem?_eq_getElem h]

/-- The test on the `-Dosgi.configuration.area` value holds exactly when the
value has a five-segment match whose third segment is `servers`. -/
theorem accepted_iff_match (v : Str) :
    CreateWebSphereInstance.accepted v = true ↔
      ∃ s1 s2 s3 s4 s5, SCXRegex.ReturnMatch v = some [v, s1, s2, s3, s4, s5] ∧
        s3 = "servers".toList := by
  unfold CreateWebSphereInstance.accepted
  constructor
  · intro h
    cases hm : SCXRegex.ReturnMatch v with
    | none => simp [hm] at h
    | some m =>
      obtain ⟨A, P, Q, S, C, hv, -⟩ := ReturnMatch_some v m hm
      subst hv
      refine ⟨A, P, Q, S, C, rfl, ?_⟩
      simp only [hm, Bool.and_eq_true, beq_iff_eq] at h
      exact h.2
  · rintro ⟨s1, s2, s3, s4, s5, hm, h3⟩
    obtain ⟨A, P, Q, S, C, -, -, -, -, -, hv⟩ := ReturnMatch_some v _ hm
    have hne : v ≠ [] := by
      rw [hv]
      simp
    simp [hm, h3, hne]

/-- The value `A/P/servers/S/C` written with its segments. -/
theorem servers_path_shape (A P S C : Str) :
    A ++ "/".toList ++ P ++ "/servers/".toList ++ S ++ "/".toList ++ C =
      (((A ++ '/' :: P) ++ '/' :: "servers".toList) ++ '/' :: S) ++ '/' :: C := by
  simp

/-- The test on the `-Dosgi.configuration.area` value holds exactly for the
values `A/P/servers/S/C` with no `/` in `P`, `S` and `C`. -/
theorem accepted_iff_shape (v : Str) :
    CreateWebSphereInstance.accepted v = true ↔
      ∃ A P S C, '/' ∉ P ∧ '/' ∉ S ∧ '/' ∉ C ∧
        v = A ++ "/".toList ++ P ++ "/servers/".toList ++ S ++ "/".toList ++ C := by
  rw [accepted_iff_match]
  constructor
  · rintro ⟨s1, s2, s3, s4, s5, hm, h3⟩
    obtain ⟨A, P, Q, S, C, hv, hP, hQ, hS, hC, htext⟩ := ReturnMatch_some v _ hm
    simp only [List.cons.injEq, and_true, true_and] at hv
    obtain ⟨e1, e2, e3, e4, e5⟩ := hv
    subst e1 e2 e3 e4 e5
    subst h3
    exact ⟨s1, s2, s4, s5, hP, hS, hC, by rw [servers_path_shape]; exact htext⟩
  · rintro ⟨A, P, S, C, hP, hS, hC, hv⟩
    rw [servers_path_shape] at hv
    subst hv
    exact ⟨A, P, "servers".toList, S, C,
      ReturnMatch_segments A P "servers".toList S C hP (by decide) hS hC, rfl⟩

/-! ## Theorems on `CreateWebSphereInstance` -/

/-- C11: when the first token equal to the runtime-class marker
`com.ibm.ws.runtime.WsServer` is at index `i` and at least four tokens follow
it, the cell, node and server of the emitted instance are the tokens at
`i + 2`, `i + 3` and `i + 4`, all inside the list; when the marker is absent or
fewer than four tokens follow it, no instance is appended, whatever the install
path properties are. -/
theorem CreateWebSphereInstance_positional :
    (∀ (L : List AppServerInstance) (params : List Str) (i : Nat) (inst : AppServerInstance),
      params[i]? = some WEBSPHERE_RUNTIME_CLASS →
      (∀ j, j < i → params[j]? ≠ some WEBSPHERE_RUNTIME_CLASS) →
      i + 5 ≤ params.length →
      CreateWebSphereInstance L params = L ++ [inst] →
      params[i + 2]? = some inst.cell ∧ params[i + 3]? = some inst.node ∧
        params[i + 4]? = some inst.server) ∧
    (∀ (L : List AppServerInstance) (params : List Str),
      WEBSPHERE_RUNTIME_CLASS ∉ params → CreateWebSphereInstance L params = L) ∧
    (∀ (L : List AppServerInstance) (params : List Str) (i : Nat),
      params[i]? = some WEBSPHERE_RUNTIME_CLASS →
      (∀ j, j < i → params[j]? ≠ some WEBSPHERE_RUNTIME_CLASS) →
      params.length < i + 5 → CreateWebSphereInstance L params = L) := by
  refine ⟨fun L params i inst hi hfirst hlen h => ?_, fun L params hm => ?_,
    fun L params i hi hfirst hlen => ?_⟩
  · rw [CreateWebSphereInstance_with_params L params i hi hfirst hlen] at h
    have h2 := getD_in_range params (i + 2) (by omega)
    have h3 := getD_in_range params (i + 3) (by omega)
    have h4 := getD_in_range params (i + 4) (by omega)
    split at h
    · have hx := List.singleton_inj.mp (List.append_cancel_left h)
      rw [← hx]
      exact ⟨h2, h3, h4⟩
    · split at h
      · have hx := List.singleton_inj.mp (List.append_cancel_left h)
        rw [← hx]
        exact ⟨h2, h3, h4⟩
      · exact absurd h (ne_append_singleton L inst)
  · exact CreateWebSphereInstance_absent L params hm
  · exact CreateWebSphereInstance_short L params i hi hfirst hlen

/-- C11 at a concrete input: the marker is at index 1, and the cell, node and
server are the tokens at 3, 4 and 5. -/
theorem CreateWebSphereInstance_positional_witness :
    ["java".toList, WEBSPHERE_RUNTIME_CLASS, "/cfg".toList, "cell1".toList, "node1".toList,
        "server1".toList, "-Dserver.root=/opt/was/AppSrv01".toList][1 + 2]? =
      some ((WebSphereAppServerInstance "/opt/was/AppSrv01".toList "cell1".toList
        "node1".toList "AppSrv01".toList "server1".toList).SetIsRunning true).cell :=
  (CreateWebSphereInstance_positional.1 []
    ["java".toList, WEBSPHERE_RUNTIME_CLASS, "/cfg".toList, "cell1".toList, "node1".toList,
      "server1".toList, "-Dserver.root=/opt/was/AppSrv01".toList] 1
    ((WebSphereAppServerInstance "/opt/was/AppSrv01".toList "cell1".toList
      "node1".toList "AppSrv01".toList "server1".toList).SetIsRunning true)
    (by decide)
    (fun j hj => by
      have hj0 : j = 0 := by omega
      subst hj0; decide)
    (by decide) (by decide)).1

/-- C12, as stated, fails: the fourth segment of `/a/p/servers/s/conf` is `s`
and the value is accepted; the fourth segment of `/a/p/x/servers/conf` is
`servers` and the value is not accepted. -/
theorem CreateWebSphereInstance_fourth_segment_counterexample :
    SCXRegex.ReturnMatch "/a/p/servers/s/conf".toList =
        some ["/a/p/servers/s/conf".toList, "/a".toList, "p".toList, "servers".toList,
          "s".toList, "conf".toList] ∧
      CreateWebSphereInstance.accepted "/a/p/servers/s/conf".toList = true ∧
      SCXRegex.ReturnMatch "/a/p/x/servers/conf".toList =
        some ["/a/p/x/servers/conf".toList, "/a".toList, "p".toList, "x".toList,
          "servers".toList, "conf".toList] ∧
      CreateWebSphereInstance.accepted "/a/p/x/servers/conf".toList = false := by
  decide

/-- C12, amended: a `-Dosgi.configuration.area` value is accepted as the
install-path source if and only if it matches the five-segment pattern and its
third segment is the literal `servers`, that is, if and only if it is
`A/P/servers/S/C` with no `/` in `P`, `S` and `C`; the single-server profile
value `/usr/WebSphere/WAS8/AppServer/profiles/AppSrv01/configuration` is not
accepted. -/
theorem CreateWebSphereInstance_accepted_iff :
    (∀ v : Str, CreateWebSphereInstance.accepted v = true ↔
      ∃ s1 s2 s3 s4 s5, SCXRegex.ReturnMatch v = some [v, s1, s2, s3, s4, s5] ∧
        s3 = "servers".toList) ∧
    (∀ v : Str, CreateWebSphereInstance.accepted v = true ↔
      ∃ A P S C, '/' ∉ P ∧ '/' ∉ S ∧ '/' ∉ C ∧
        v = A ++ "/".toList ++ P ++ "/servers/".toList ++ S ++ "/".toList ++ C) ∧
    CreateWebSphereInstance.accepted
      "/usr/WebSphere/WAS8/AppServer/profiles/AppSrv01/configuration".toList = false :=
  ⟨accepted_iff_match, accepted_iff_shape, by decide⟩

/-- C13: when the `-Dosgi.configuration.area` value is `A/P/servers/S/C` with
no `/` in `P`, `S` and `C`, and the runtime-class marker is followed by at
least four tokens, one instance is emitted with install path `A/P/servers/S`
and profile `P`, whatever the `-Dserver.root` value is. -/
theorem CreateWebSphereInstance_reconstruction (L : List AppServerInstance)
    (params : List Str) (A P S C : Str) (i : Nat)
    (hP : '/' ∉ P) (hS : '/' ∉ S) (hC : '/' ∉ C)
    (hv : ParseOutCommandLineArg params "-Dosgi.configuration.area".toList true true =
      A ++ "/".toList ++ P ++ "/servers/".toList ++ S ++ "/".toList ++ C)
    (hi : params[i]? = some WEBSPHERE_RUNTIME_CLASS)
    (hfirst : ∀ j, j < i → params[j]? ≠ some WEBSPHERE_RUNTIME_CLASS)
    (hlen : i + 5 ≤ params.length) :
    ∃ inst, CreateWebSphereInstance L params = L ++ [inst] ∧
      inst.vendor = Vendor.WebSphere ∧
      inst.installPath = A ++ "/".toList ++ P ++ "/servers/".toList ++ S ∧
      inst.profile = P := by
  have hacc : CreateWebSphereInstance.accepted
      (ParseOutCommandLineArg params "-Dosgi.configuration.area".toList true true) = true :=
    (accepted_iff_shape _).mpr ⟨A, P, S, C, hP, hS, hC, hv⟩
  have hm := ReturnMatch_segments A P "servers".toList S C hP (by decide) hS hC
  rw [← servers_path_shape, ← hv] at hm
  rw [CreateWebSphereInstance_with_params L params i hi hfirst hlen, if_pos hacc, hm]
  refine ⟨_, rfl, rfl, ?_, rfl⟩
  simp [WebSphereAppServerInstance, AppServerInstance.SetIsRunning]

/-- C13 at a concrete input: the value
`/was/profiles/AppSrv01/servers/server1/configuration` gives the install path
`/was/profiles/AppSrv01/servers/server1` and the profile `AppSrv01`, although
`-Dserver.root` is present. -/
theorem CreateWebSphereInstance_reconstruction_witness :
    ∃ inst, CreateWebSphereInstance []
        [WEBSPHERE_RUNTIME_CLASS, "/cfg".toList, "cell1".toList, "node1".toList,
          "server1".toList, "-Dserver.root=/other/root".toList,
          "-Dosgi.configuration.area=/was/profiles/AppSrv01/servers/server1/configuration".toList] =
        [] ++ [inst] ∧
      inst.vendor = Vendor.WebSphere ∧
      inst.installPath = "/was/profiles".toList ++ "/".toList ++ "AppSrv01".toList ++
        "/servers/".toList ++ "server1".toList ∧
      inst.profile = "AppSrv01".toList :=
  CreateWebSphereInstance_reconstruction []
    [WEBSPHERE_RUNTIME_CLASS, "/cfg".toList, "cell1".toList, "node1".toList,
      "server1".toList, "-Dserver.root=/other/root".toList,
      "-Dosgi.configuration.area=/was/profiles/AppSrv01/servers/server1/configuration".toList]
    "/was/profiles".toList "AppSrv01".toList "server1".toList "configuration".toList 0
    (by decide) (by decide) (by decide) (by decide) (by decide)
    (fun j hj => absurd hj (Nat.not_lt_zero j)) (by decide)

/-- C14: when the `-Dosgi.configuration.area` value is absent or fails the
structural check, the install path of an emitted instance is the `-Dserver.root`
value taken literally and its profile is the final path segment of that value
(`seg` for a value `X/seg`); when the `-Dserver.root` value is empty too, no
instance is appended. An instance is appended only when both the positional
and the install-path resolution succeed. -/
theorem CreateWebSphereInstance_fallback :
    (∀ (L : List AppServerInstance) (params : List Str) (inst : AppServerInstance),
      CreateWebSphereInstance.accepted
        (ParseOutCommandLineArg params "-Dosgi.configuration.area".toList true true) = false →
      CreateWebSphereInstance L params = L ++ [inst] →
      inst.installPath = ParseOutCommandLineArg params "-Dserver.root".toList true true ∧
      inst.profile = SCXFilePath.GetFilename
        (ParseOutCommandLineArg params "-Dserver.root".toList true true)) ∧
    (∀ (X seg : Str), '/' ∉ seg →
      SCXFilePath.GetFilename (X ++ "/".toList ++ seg) = seg) ∧
    (∀ (L : List AppServerInstance) (params : List Str),
      CreateWebSphereInstance.accepted
        (ParseOutCommandLineArg params "-Dosgi.configuration.area".toList true true) = false →
      ParseOutCommandLineArg params "-Dserver.root".toList true true = [] →
      CreateWebSphereInstance L params = L) ∧
    (∀ (L : List AppServerInstance) (params : List Str) (inst : AppServerInstance),
      CreateWebSphereInstance L params = L ++ [inst] →
      (∃ i : Nat, params[i]? = some WEBSPHERE_RUNTIME_CLASS ∧
        (∀ j : Nat, j < i → params[j]? ≠ some WEBSPHERE_RUNTIME_CLASS) ∧
        i + 5 ≤ params.length) ∧
      (CreateWebSphereInstance.accepted
          (ParseOutCommandLineArg params "-Dosgi.configuration.area".toList true true) = true ∨
        ParseOutCommandLineArg params "-Dserver.root".toList true true ≠ [])) := by
  refine ⟨fun L params inst hacc h => ?_, fun X seg hs => ?_, fun L params hacc hroot => ?_,
    fun L params inst h => ?_⟩
  · obtain ⟨i, hi, hfirst, hlen⟩ := CreateWebSphereInstance_appended_params L params inst h
    rw [CreateWebSphereInstance_with_params L params i hi hfirst hlen, hacc] at h
    simp only [Bool.false_eq_true, if_false] at h
    split at h
    · have hx := List.singleton_inj.mp (List.append_cancel_left h)
      rw [← hx]
      exact ⟨rfl, rfl⟩
    · exact absurd h (ne_append_singleton L inst)
  · have : X ++ "/".toList ++ seg = X ++ '/' :: seg := by simp
    rw [this]
    exact GetFilename_append X seg hs
  · by_cases hm : WEBSPHERE_RUNTIME_CLASS ∈ params
    · obtain ⟨i, hi, hfirst⟩ := exists_first_index _ _ hm
      by_cases hlen : i + 5 ≤ params.length
      · rw [CreateWebSphereInstance_with_params L params i hi hfirst hlen, hacc]
        simp only [Bool.false_eq_true, if_false]
        rw [if_neg (not_not.mpr hroot)]
      · exact CreateWebSphereInstance_short L params i hi hfirst (by omega)
    · exact CreateWebSphereInstance_absent L params hm
  · obtain ⟨i, hi, hfirst, hlen⟩ := CreateWebSphereInstance_appended_params L params inst h
    refine ⟨⟨i, hi, hfirst, hlen⟩, ?_⟩
    rw [CreateWebSphereInstance_with_params L params i hi hfirst hlen] at h
    by_cases hacc : CreateWebSphereInstance.accepted
        (ParseOutCommandLineArg params "-Dosgi.configuration.area".toList true true) = true
    · exact Or.inl hacc
    · right
      rw [if_neg hacc] at h
      intro hroot
      rw [if_neg (not_not.mpr hroot)] at h
      exact ne_append_singleton L inst h

/-- C14 at a concrete input: the single-server value is not accepted and the
instance takes `/opt/was/profiles/AppSrv01` of `-Dserver.root` as install path
and `AppSrv01` as profile. -/
theorem CreateWebSphereInstance_fallback_witness :
    ((WebSphereAppServerInstance "/opt/was/profiles/AppSrv01".toList "cell1".toList
        "node1".toList "AppSrv01".toList "server1".toList).SetIsRunning true).installPath =
      ParseOutCommandLineArg
        [WEBSPHERE_RUNTIME_CLASS, "/cfg".toList, "cell1".toList, "node1".toList,
          "server1".toList, "-Dserver.root=/opt/was/profiles/AppSrv01".toList,
          "-Dosgi.configuration.area=/opt/was/profiles/AppSrv01/configuration".toList]
        "-Dserver.root".toList true true ∧
    ((WebSphereAppServerInstance "/opt/was/profiles/AppSrv01".toList "cell1".toList
        "node1".toList "AppSrv01".toList "server1".toList).SetIsRunning true).profile =
      SCXFilePath.GetFilename (ParseOutCommandLineArg
        [WEBSPHERE_RUNTIME_CLASS, "/cfg".toList, "cell1".toList, "node1".toList,
          "server1".toList, "-Dserver.root=/opt/was/profiles/AppSrv01".toList,
          "-Dosgi.configuration.area=/opt/was/profiles/AppSrv01/configuration".toList]
        "-Dserver.root".toList true true) :=
  CreateWebSphereInstance_fallback.1 []
    [WEBSPHERE_RUNTIME_CLASS, "/cfg".toList, "cell1".toList, "node1".toList,
      "server1".toList, "-Dserver.root=/opt/was/profiles/AppSrv01".toList,
      "-Dosgi.configuration.area=/opt/was/profiles/AppSrv01/configuration".toList]
    ((WebSphereAppServerInstance "/opt/was/profiles/AppSrv01".toList "cell1".toList
      "node1".toList "AppSrv01".toList "server1".toList).SetIsRunning true)
    (by decide) (by decide)

/-! ## Lemmas on `GetWeblogicHome` -/

/-- The test `empty()` on a string. -/
theorem isEmpty_eq_false_of_ne (V : Str) (h : V ≠ []) : V.isEmpty = false := by
  cases V with
  | nil => exact absurd rfl h
  | cons c cs => rfl

/-- The result of `GetWeblogicHome`, rule by rule, in terms of the four
values. -/
theorem GetWeblogicHome_rules (params : List Str) :
    GetWeblogicHome params =
      if ParseOutCommandLineArg params "-Dplatform.home".toList true true ≠ [] then
        GetParentDirectory (ParseOutCommandLineArg params "-Dplatform.home".toList true true) 1
      else if ParseOutCommandLineArg params "-Dbea.home".toList true true ≠ [] then
        some (ParseOutCommandLineArg params "-Dbea.home".toList true true)
      else if ParseOutCommandLineArg params "-Dweblogic.home".toList true true ≠ [] then
        (GetParentDirectory
          (ParseOutCommandLineArg params "-Dweblogic.home".toList true true) 1).bind
          (fun parent => GetParentDirectory parent 1)
      else if ParseOutCommandLineArg params
          "-Dweblogic.system.BootIdentityFile".toList true true ≠ [] then
        GetParentDirectory (ParseOutCommandLineArg params
          "-Dweblogic.system.BootIdentityFile".toList true true) 8
      else some [] := by
  unfold GetWeblogicHome
  dsimp only
  generalize ParseOutCommandLineArg params "-Dplatform.home".toList true true = p
  generalize ParseOutCommandLineArg params "-Dbea.home".toList true true = b
  generalize ParseOutCommandLineArg params "-Dweblogic.home".toList true true = w
  generalize ParseOutCommandLineArg params
    "-Dweblogic.system.BootIdentityFile".toList true true = boot
  by_cases hp : p = []
  · by_cases hb : b = []
    · by_cases hw : w = []
      · by_cases hboot : boot = []
        · simp [hp, hb, hw, hboot]
        · simp [hp, hb, hw, hboot, isEmpty_eq_false_of_ne boot hboot]
      · simp [hp, hb, hw, isEmpty_eq_false_of_ne w hw]
    · simp [hp, hb, isEmpty_eq_false_of_ne b hb]
  · simp [hp, isEmpty_eq_false_of_ne p hp]

/-- The parent directory of a non-empty path is defined. -/
theorem GetParentDirectory_isSome (V : Str) (levels : Nat) (h : V ≠ []) :
    (GetParentDirectory V levels).isSome = true := by
  unfold GetParentDirectory
  have hlast := last_char_append [] V h
  rw [List.nil_append] at hlast
  rw [hlast]
  rfl

/-- Two levels up from `X/a/b`. -/
theorem GetParentDirectory_two_levels (X a b : Str) (ha : a ≠ []) (hb : b ≠ [])
    (hsa : '/' ∉ a) (hsb : '/' ∉ b) :
    (GetParentDirectory (X ++ "/".toList ++ a ++ "/".toList ++ b) 1).bind
      (fun parent => GetParentDirectory parent 1) = some X := by
  have h1 := GetParentDirectory_segments (X ++ "/".toList ++ a) [b] (by simp)
    (by simpa using ⟨hb, hsb⟩)
  have h2 := GetParentDirectory_segments X [a] (by simp) (by simpa using ⟨ha, hsa⟩)
  have e1 : X ++ "/".toList ++ a ++ "/".toList ++ b =
      X ++ "/".toList ++ a ++ ([b].map (fun s => '/' :: s)).flatten := by simp
  have e2 : X ++ "/".toList ++ a = X ++ ([a].map (fun s => '/' :: s)).flatten := by simp
  rw [e1]
  rw [show ([b] : List Str).length = 1 from rfl] at h1
  rw [h1, Option.some_bind, e2]
  exact h2

/-! ## Theorems on `GetWeblogicHome` -/

/-- C15: when `-Dplatform.home` has a non-empty value `V`, the result is the
parent directory of `V` (one level), and it is defined, whatever the values of
`-Dbea.home`, `-Dweblogic.home` and `-Dweblogic.system.BootIdentityFile`;
with `-Dplatform.home=/opt/Oracle/Middleware/wlserver_10.3` and
`-Dbea.home=/root/Oracle/Middleware` the result is `/opt/Oracle/Middleware`. -/
theorem GetWeblogicHome_platform_home :
    (∀ (params : List Str),
      ParseOutCommandLineArg params "-Dplatform.home".toList true true ≠ [] →
      GetWeblogicHome params =
        GetParentDirectory (ParseOutCommandLineArg params "-Dplatform.home".toList true true) 1 ∧
      (GetWeblogicHome params).isSome = true) ∧
    GetWeblogicHome ["-Dbea.home=/root/Oracle/Middleware".toList,
        "-Dplatform.home=/opt/Oracle/Middleware/wlserver_10.3".toList] =
      some "/opt/Oracle/Middleware".toList := by
  refine ⟨fun params h => ?_, by decide⟩
  unfold GetWeblogicHome
  dsimp only
  generalize ParseOutCommandLineArg params "-Dplatform.home".toList true true = V at h ⊢
  have hV : V.isEmpty = false := by
    cases V with
    | nil => exact absurd rfl h
    | cons c cs => rfl
  simp only [hV, Bool.not_false, if_true, true_and]
  cases V with
  | nil => exact absurd rfl h
  | cons c cs =>
    unfold GetParentDirectory
    have hlast := last_char_append [] (c :: cs) (List.cons_ne_nil c cs)
    rw [List.nil_append] at hlast
    rw [hlast]
    rfl

/-- C15 at a concrete input: the parent of the `-Dplatform.home` value wins
over the `-Dbea.home` and `-Dweblogic.home` values. -/
theorem GetWeblogicHome_platform_home_witness :
    GetWeblogicHome ["-Dbea.home=/b".toList, "-Dweblogic.home=/w/x/y".toList,
        "-Dplatform.home=/opt/mw/wlserver".toList] =
      GetParentDirectory (ParseOutCommandLineArg
        ["-Dbea.home=/b".toList, "-Dweblogic.home=/w/x/y".toList,
          "-Dplatform.home=/opt/mw/wlserver".toList] "-Dplatform.home".toList true true) 1 :=
  (GetWeblogicHome_platform_home.1
    ["-Dbea.home=/b".toList, "-Dweblogic.home=/w/x/y".toList,
      "-Dplatform.home=/opt/mw/wlserver".toList] (by decide)).1

set_option maxRecDepth 8000 in
/-- C16: with no `-Dplatform.home` value, the result is the `-Dbea.home` value
verbatim when it is non-empty; else, for a `-Dweblogic.home` value `X/a/b` with
`a` and `b` non-empty and free of `/`, it is `X`; else, for a
`-Dweblogic.system.BootIdentityFile` value `X/s1/.../s8` with eight non-empty
segments free of `/`, it is `X`, as `/opt/Oracle/Middleware` for the boot
identity file of the managed server `Managed1`. -/
theorem GetWeblogicHome_lower_rules :
    (∀ (params : List Str),
      ParseOutCommandLineArg params "-Dplatform.home".toList true true = [] →
      ParseOutCommandLineArg params "-Dbea.home".toList true true ≠ [] →
      GetWeblogicHome params =
        some (ParseOutCommandLineArg params "-Dbea.home".toList true true)) ∧
    (∀ (params : List Str) (X a b : Str),
      ParseOutCommandLineArg params "-Dplatform.home".toList true true = [] →
      ParseOutCommandLineArg params "-Dbea.home".toList true true = [] →
      a ≠ [] → b ≠ [] → '/' ∉ a → '/' ∉ b →
      ParseOutCommandLineArg params "-Dweblogic.home".toList true true =
        X ++ "/".toList ++ a ++ "/".toList ++ b →
      GetWeblogicHome params = some X) ∧
    (∀ (params : List Str) (X : Str) (segs : List Str),
      ParseOutCommandLineArg params "-Dplatform.home".toList true true = [] →
      ParseOutCommandLineArg params "-Dbea.home".toList true true = [] →
      ParseOutCommandLineArg params "-Dweblogic.home".toList true true = [] →
      segs.length = 8 → (∀ s ∈ segs, s ≠ [] ∧ '/' ∉ s) →
      ParseOutCommandLineArg params "-Dweblogic.system.BootIdentityFile".toList true true =
        X ++ (segs.map (fun s => '/' :: s)).flatten →
      GetWeblogicHome params = some X) ∧
    GetWeblogicHome ["-Dweblogic.system.BootIdentityFile=/opt/Oracle/Middleware/user_projects/domains/base_domain/servers/Managed1/data/nodemanager/boot.properties".toList] =
      some "/opt/Oracle/Middleware".toList := by
  refine ⟨fun params hp hb => ?_, fun params X a b hp hb ha hbn hsa hsb hw => ?_,
    fun params X segs hp hb hw hlen hsegs hboot => ?_, by decide⟩
  · rw [GetWeblogicHome_rules, if_neg (not_not.mpr hp), if_pos hb]
  · have hwne : ParseOutCommandLineArg params "-Dweblogic.home".toList true true ≠ [] := by
      rw [hw]
      cases b with
      | nil => exact absurd rfl hbn
      | cons c cs => simp
    rw [GetWeblogicHome_rules, if_neg (not_not.mpr hp), if_neg (not_not.mpr hb), if_pos hwne,
      hw]
    exact GetParentDirectory_two_levels X a b ha hbn hsa hsb
  · have hsne : segs ≠ [] := by
      intro hc
      rw [hc] at hlen
      simp at hlen
    have hbne : ParseOutCommandLineArg params
        "-Dweblogic.system.BootIdentityFile".toList true true ≠ [] := by
      rw [hboot]
      cases segs with
      | nil => exact absurd rfl hsne
      | cons a rest => simp
    rw [GetWeblogicHome_rules, if_neg (not_not.mpr hp), if_neg (not_not.mpr hb),
      if_neg (not_not.mpr hw), if_pos hbne, hboot, ← hlen]
    exact GetParentDirectory_segments X segs hsne hsegs

/-- C16 at a concrete input: `-Dweblogic.home=/opt/mw/wlserver/server` gives
`/opt/mw`, two levels up. -/
theorem GetWeblogicHome_lower_rules_witness :
    GetWeblogicHome ["-Dweblogic.home=/opt/mw/wlserver/server".toList] = some "/opt/mw".toList :=
  GetWeblogicHome_lower_rules.2.1 ["-Dweblogic.home=/opt/mw/wlserver/server".toList]
    "/opt/mw".toList "wlserver".toList "server".toList
    (by decide) (by decide) (by decide) (by decide) (by decide) (by decide) (by decide)

/-- C17, as stated, fails: `-Dplatform.home` has the non-empty value `/opt`
and the result is the empty string. -/
theorem GetWeblogicHome_empty_counterexample :
    ParseOutCommandLineArg ["-Dplatform.home=/opt".toList] "-Dplatform.home".toList
        true true = "/opt".toList ∧
      "/opt".toList ≠ [] ∧
      GetWeblogicHome ["-Dplatform.home=/opt".toList] = some [] := by
  decide

/-- C17, amended: the result is the empty string when none of
`-Dplatform.home`, `-Dbea.home`, `-Dweblogic.home` and
`-Dweblogic.system.BootIdentityFile` has a non-empty value; when one of them
has, the result is the empty string exactly when the deciding value is not the
`-Dbea.home` one and the parent directory computation on it (one level for
`-Dplatform.home`, two for `-Dweblogic.home`, eight for the boot identity file)
yields the empty string. -/
theorem GetWeblogicHome_empty_iff (params : List Str) :
    (ParseOutCommandLineArg params "-Dplatform.home".toList true true = [] →
      ParseOutCommandLineArg params "-Dbea.home".toList true true = [] →
      ParseOutCommandLineArg params "-Dweblogic.home".toList true true = [] →
      ParseOutCommandLineArg params "-Dweblogic.system.BootIdentityFile".toList true true = [] →
      GetWeblogicHome params = some []) ∧
    (GetWeblogicHome params = some [] ↔
      (ParseOutCommandLineArg params "-Dplatform.home".toList true true = [] ∧
        ParseOutCommandLineArg params "-Dbea.home".toList true true = [] ∧
        ParseOutCommandLineArg params "-Dweblogic.home".toList true true = [] ∧
        ParseOutCommandLineArg params
          "-Dweblogic.system.BootIdentityFile".toList true true = []) ∨
      (ParseOutCommandLineArg params "-Dplatform.home".toList true true ≠ [] ∧
        GetParentDirectory
          (ParseOutCommandLineArg params "-Dplatform.home".toList true true) 1 = some []) ∨
      (ParseOutCommandLineArg params "-Dplatform.home".toList true true = [] ∧
        ParseOutCommandLineArg params "-Dbea.home".toList true true = [] ∧
        ParseOutCommandLineArg params "-Dweblogic.home".toList true true ≠ [] ∧
        (GetParentDirectory
          (ParseOutCommandLineArg params "-Dweblogic.home".toList true true) 1).bind
          (fun parent => GetParentDirectory parent 1) = some []) ∨
      (ParseOutCommandLineArg params "-Dplatform.home".toList true true = [] ∧
        ParseOutCommandLineArg params "-Dbea.home".toList true true = [] ∧
        ParseOutCommandLineArg params "-Dweblogic.home".toList true true = [] ∧
        ParseOutCommandLineArg params
          "-Dweblogic.system.BootIdentityFile".toList true true ≠ [] ∧
        GetParentDirectory (ParseOutCommandLineArg params
          "-Dweblogic.system.BootIdentityFile".toList true true) 8 = some [])) := by
  rw [GetWeblogicHome_rules]
  generalize ParseOutCommandLineArg params "-Dplatform.home".toList true true = p
  generalize ParseOutCommandLineArg params "-Dbea.home".toList true true = b
  generalize ParseOutCommandLineArg params "-Dweblogic.home".toList true true = w
  generalize ParseOutCommandLineArg params
    "-Dweblogic.system.BootIdentityFile".toList true true = boot
  refine ⟨fun hp hb hw hboot => by simp [hp, hb, hw, hboot], ?_⟩
  by_cases hp : p = []
  · by_cases hb : b = []
    · by_cases hw : w = []
      · by_cases hboot : boot = []
        · simp [hp, hb, hw, hboot]
        · simp [hp, hb, hw, hboot]
      · simp [hp, hb, hw]
    · simp [hp, hb]
  · simp [hp]

/-- C17, amended, at a concrete input: no property is present and the result
is the empty string. -/
theorem GetWeblogicHome_empty_iff_witness :
    GetWeblogicHome ["weblogic.Server".toList] = some [] :=
  (GetWeblogicHome_empty_iff ["weblogic.Server".toList]).1
    (by decide) (by decide) (by decide) (by decide)

/-! ## Lemmas on the loop body of `Update` -/

/-- The JBoss extractor leaves the list as it is or appends one JBoss instance
that is running. -/
theorem CreateJBossInstance_shape (L : List AppServerInstance) (params : List Str) :
    ∃ (got : Bool) (x : AppServerInstance),
      CreateJBossInstance L params = (if got = true then L ++ [x] else L) ∧
      x.vendor = Vendor.JBoss ∧ x.isRunning = true :=
  ⟨_, _, rfl, rfl, rfl⟩

/-- The Tomcat extractor leaves the list as it is or appends one Tomcat
instance that is running. -/
theorem CreateTomcatInstance_shape (L : List AppServerInstance) (params : List Str) :
    ∃ (got : Bool) (x : AppServerInstance),
      CreateTomcatInstance L params = (if got = true then L ++ [x] else L) ∧
      x.vendor = Vendor.Tomcat ∧ x.isRunning = true :=
  ⟨_, _, rfl, rfl, rfl⟩

/-- What the JBoss extractor adds is of the JBoss family. -/
theorem CreateJBossInstance_adds (L : List AppServerInstance) (params : List Str) :
    ∃ new, CreateJBossInstance L params = L ++ new ∧ ∀ inst ∈ new, inst.vendor = Vendor.JBoss := by
  obtain ⟨got, x, h, hv, -⟩ := CreateJBossInstance_shape L params
  cases got with
  | false => exact ⟨[], by simpa using h, by simp⟩
  | true => exact ⟨[x], by simpa using h, by simpa using hv⟩

/-- What the Tomcat extractor adds is of the Tomcat family. -/
theorem CreateTomcatInstance_adds (L : List AppServerInstance) (params : List Str) :
    ∃ new, CreateTomcatInstance L params = L ++ new ∧
      ∀ inst ∈ new, inst.vendor = Vendor.Tomcat := by
  obtain ⟨got, x, h, hv, -⟩ := CreateTomcatInstance_shape L params
  cases got with
  | false => exact ⟨[], by simpa using h, by simp⟩
  | true => exact ⟨[x], by simpa using h, by simpa using hv⟩

/-- The WebSphere extractor leaves the list as it is or appends one WebSphere
instance that is running. -/
theorem CreateWebSphereInstance_shape (L : List AppServerInstance) (params : List Str) :
    ∃ (got : Bool) (x : AppServerInstance),
      CreateWebSphereInstance L params = (if got = true then L ++ [x] else L) ∧
      x.vendor = Vendor.WebSphere ∧ x.isRunning = true :=
  ⟨_, _, rfl, rfl, rfl⟩

/-- What the WebSphere extractor adds is of the WebSphere family. -/
theorem CreateWebSphereInstance_adds (L : List AppServerInstance) (params : List Str) :
    ∃ new, CreateWebSphereInstance L params = L ++ new ∧
      ∀ inst ∈ new, inst.vendor = Vendor.WebSphere := by
  obtain ⟨got, x, h, hv, -⟩ := CreateWebSphereInstance_shape L params
  cases got with
  | false => exact ⟨[], by simpa using h, by simp⟩
  | true => exact ⟨[x], by simpa using h, by simpa using hv⟩

/-- With a non-empty `-Djboss.home.dir` value the JBoss extractor appends one
JBoss instance. -/
theorem CreateJBossInstance_emits (L : List AppServerInstance) (params : List Str)
    (h : ParseOutCommandLineArg params "-Djboss.home.dir".toList true true ≠ []) :
    ∃ inst, CreateJBossInstance L params = L ++ [inst] ∧ inst.vendor = Vendor.JBoss := by
  unfold CreateJBossInstance
  dsimp only
  generalize ParseOutCommandLineArg params "-classpath".toList true true = arg
  generalize ParseOutCommandLineArg params "-Djboss.home.dir".toList true true = home at h ⊢
  by_cases harg : arg = [] <;> by_cases hdir : GetJBossPathFromClassPath arg = [] <;>
    simp [List.length_pos, harg, hdir, h, JBossAppServerInstance,
      AppServerInstance.SetIsRunning]

/-- With a non-empty `-Dcatalina.home` value the Tomcat extractor appends one
Tomcat instance. -/
theorem CreateTomcatInstance_emits (L : List AppServerInstance) (params : List Str)
    (h : ParseOutCommandLineArg params "-Dcatalina.home".toList true true ≠ []) :
    ∃ inst, CreateTomcatInstance L params = L ++ [inst] ∧ inst.vendor = Vendor.Tomcat := by
  unfold CreateTomcatInstance
  dsimp only
  generalize ParseOutCommandLineArg params "-Dcatalina.home".toList true true = home at h ⊢
  simp [h, TomcatAppServerInstance, AppServerInstance.SetIsRunning]

/-- The list of instances after the loop body, when it has a result: each
extractor whose test holds has been applied, in the order JBoss, Tomcat,
WebSphere. -/
theorem Update_process_instances (state next : UpdateState) (params : List Str)
    (h : Update.process state params = some next) :
    next.ASInstances =
      if Update.isWebSphere params = true then
        CreateWebSphereInstance
          (if Update.isTomcat params = true then
            CreateTomcatInstance
              (if Update.isJBoss params = true then
                CreateJBossInstance state.ASInstances params
              else state.ASInstances) params
          else if Update.isJBoss params = true then
            CreateJBossInstance state.ASInstances params
          else state.ASInstances) params
      else if Update.isTomcat params = true then
        CreateTomcatInstance
          (if Update.isJBoss params = true then
            CreateJBossInstance state.ASInstances params
          else state.ASInstances) params
      else if Update.isJBoss params = true then
        CreateJBossInstance state.ASInstances params
      else state.ASInstances := by
  unfold Update.process at h
  dsimp only at h
  split at h
  · simp at h
  · rename_i got wl hwl
    simp only [Option.some.injEq] at h
    rw [← h]

/-- The loop body has a result unless `GetWeblogicHome` is called and has
none. -/
theorem Update_process_isSome (state : UpdateState) (params : List Str)
    (h : Update.isWeblogic params = false ∨ (GetWeblogicHome params).isSome = true) :
    (Update.process state params).isSome = true := by
  unfold Update.process
  dsimp only
  rcases h with h | h
  · simp [h]
  · cases hw : GetWeblogicHome params with
    | none => rw [hw] at h; simp at h
    | some wlHome =>
      by_cases hwl : Update.isWeblogic params = true <;>
        by_cases he : wlHome.isEmpty = true <;> simp [hwl, he]

/-! ## Theorems on the classifiers and the loop body of `Update` -/

/-- C18: `CheckProcessCmdLineArgExists` is true if and only if some token is
equal to the marker as a whole; a token that only contains the marker does not
count. Hence the JBoss test of `Update` holds iff some token is one of
`org.jboss.Main`, `org.jboss.as.standalone`, `org.jboss.as.server`, the Tomcat
test iff some token is `org.apache.catalina.startup.Bootstrap`, and the
WebLogic test iff some token is `weblogic.Server`. -/
theorem CheckProcessCmdLineArgExists_membership :
    (∀ (params : List Str) (value : Str),
      CheckProcessCmdLineArgExists params value = true ↔ ∃ t ∈ params, t = value) ∧
    CheckProcessCmdLineArgExists ["-Dmain=org.jboss.Main".toList, "xorg.jboss.Mainx".toList]
      "org.jboss.Main".toList = false ∧
    (∀ (params : List Str), Update.isJBoss params = true ↔
      ∃ t ∈ params, t = "org.jboss.Main".toList ∨ t = "org.jboss.as.standalone".toList ∨
        t = "org.jboss.as.server".toList) ∧
    (∀ (params : List Str), Update.isTomcat params = true ↔
      ∃ t ∈ params, t = "org.apache.catalina.startup.Bootstrap".toList) ∧
    (∀ (params : List Str), Update.isWeblogic params = true ↔
      ∃ t ∈ params, t = "weblogic.Server".toList) := by
  refine ⟨fun params value => ?_, by decide, fun params => ?_, fun params => ?_,
    fun params => ?_⟩
  · rw [CheckProcessCmdLineArgExists_iff_mem]
    exact ⟨fun h => ⟨value, h, rfl⟩, fun ⟨t, ht, e⟩ => e ▸ ht⟩
  · unfold Update.isJBoss
    rw [Bool.or_eq_true, Bool.or_eq_true, CheckProcessCmdLineArgExists_iff_mem,
      CheckProcessCmdLineArgExists_iff_mem, CheckProcessCmdLineArgExists_iff_mem]
    constructor
    · rintro ((h | h) | h)
      · exact ⟨_, h, Or.inl rfl⟩
      · exact ⟨_, h, Or.inr (Or.inl rfl)⟩
      · exact ⟨_, h, Or.inr (Or.inr rfl)⟩
    · rintro ⟨t, ht, e | e | e⟩
      · exact Or.inl (Or.inl (e ▸ ht))
      · exact Or.inl (Or.inr (e ▸ ht))
      · exact Or.inr (e ▸ ht)
  · unfold Update.isTomcat
    rw [CheckProcessCmdLineArgExists_iff_mem]
    exact ⟨fun h => ⟨_, h, rfl⟩, fun ⟨t, ht, e⟩ => e ▸ ht⟩
  · unfold Update.isWeblogic
    rw [CheckProcessCmdLineArgExists_iff_mem]
    exact ⟨fun h => ⟨_, h, rfl⟩, fun ⟨t, ht, e⟩ => e ▸ ht⟩

/-- C19: for a process whose tokens do not hold both
`com.ibm.ws.bootstrap.WSLauncher` and the runtime-class marker, the loop body
of `Update` does not run the WebSphere extractor (the instances are those left
by the JBoss and Tomcat extractors) and what the process adds holds no
WebSphere instance; the loop body has a result whenever `weblogic.Server` is
not among the tokens. -/
theorem Update_websphere_needs_both_markers :
    (∀ (state next : UpdateState) (params : List Str),
      ¬ ("com.ibm.ws.bootstrap.WSLauncher".toList ∈ params ∧
        WEBSPHERE_RUNTIME_CLASS ∈ params) →
      Update.process state params = some next →
      next.ASInstances =
        (if Update.isTomcat params = true then
          CreateTomcatInstance
            (if Update.isJBoss params = true then
              CreateJBossInstance state.ASInstances params
            else state.ASInstances) params
        else if Update.isJBoss params = true then
          CreateJBossInstance state.ASInstances params
        else state.ASInstances) ∧
      ∃ new, next.ASInstances = state.ASInstances ++ new ∧
        ∀ inst ∈ new, inst.vendor ≠ Vendor.WebSphere) ∧
    (∀ (state : UpdateState) (params : List Str),
      "weblogic.Server".toList ∉ params → (Update.process state params).isSome = true) := by
  refine ⟨fun state next params hboth h => ?_, fun state params hw => ?_⟩
  · have hws : ¬ Update.isWebSphere params = true := by
      unfold Update.isWebSphere
      rw [Bool.and_eq_true, CheckProcessCmdLineArgExists_iff_mem,
        CheckProcessCmdLineArgExists_iff_mem]
      exact hboth
    have hinst := Update_process_instances state next params h
    rw [if_neg hws] at hinst
    refine ⟨hinst, ?_⟩
    rw [hinst]
    obtain ⟨nj, hj, hvj⟩ := CreateJBossInstance_adds state.ASInstances params
    by_cases hJ : Update.isJBoss params = true
    · obtain ⟨nt, ht, hvt⟩ := CreateTomcatInstance_adds (state.ASInstances ++ nj) params
      by_cases hT : Update.isTomcat params = true
      · rw [if_pos hT, if_pos hJ, hj, ht]
        refine ⟨nj ++ nt, by simp, fun inst hi => ?_⟩
        rcases List.mem_append.mp hi with hi | hi
        · rw [hvj inst hi]; decide
        · rw [hvt inst hi]; decide
      · rw [if_neg hT, if_pos hJ, hj]
        exact ⟨nj, rfl, fun inst hi => by rw [hvj inst hi]; decide⟩
    · obtain ⟨nt, ht, hvt⟩ := CreateTomcatInstance_adds state.ASInstances params
      by_cases hT : Update.isTomcat params = true
      · rw [if_pos hT, if_neg hJ, ht]
        exact ⟨nt, rfl, fun inst hi => by rw [hvt inst hi]; decide⟩
      · rw [if_neg hT, if_neg hJ]
        exact ⟨[], by simp, by simp⟩
  · apply Update_process_isSome
    left
    unfold Update.isWeblogic
    cases hc : CheckProcessCmdLineArgExists params "weblogic.Server".toList with
    | false => rfl
    | true => exact absurd ((CheckProcessCmdLineArgExists_iff_mem _ _).mp hc) hw

/-- C19 at a concrete input: the tokens hold the runtime-class marker, four
positional tokens and `-Dserver.root`, but not `com.ibm.ws.bootstrap.WSLauncher`;
the WebSphere extractor alone would emit an instance, and the loop body of
`Update` leaves the list of instances empty. -/
theorem Update_websphere_needs_both_markers_witness :
    CreateWebSphereInstance []
        [WEBSPHERE_RUNTIME_CLASS, "/cfg".toList, "cell1".toList, "node1".toList,
          "server1".toList, "-Dserver.root=/opt/was/AppSrv01".toList] ≠ [] ∧
      ∃ new, ({ ASInstances := [], gotWeblogicProcesses := false, weblogicProcesses := [] } :
          UpdateState).ASInstances = [] ++ new ∧
        ∀ inst ∈ new, inst.vendor ≠ Vendor.WebSphere :=
  ⟨by decide,
   ((Update_websphere_needs_both_markers.1
      { ASInstances := [], gotWeblogicProcesses := false, weblogicProcesses := [] }
      { ASInstances := [], gotWeblogicProcesses := false, weblogicProcesses := [] }
      [WEBSPHERE_RUNTIME_CLASS, "/cfg".toList, "cell1".toList, "node1".toList,
        "server1".toList, "-Dserver.root=/opt/was/AppSrv01".toList]
      (by decide) (by decide)).2)⟩

/-- C20: the tests of `Update` are independent: after the loop body the list
of instances is the result of every extractor whose test holds, applied in the
order JBoss, Tomcat, WebSphere, and the body has a result unless the WebLogic
home of the same process is undefined. A process whose tokens hold both
`org.jboss.Main` and `org.apache.catalina.startup.Bootstrap`, with non-empty
`-Djboss.home.dir` and `-Dcatalina.home` values, adds a JBoss and a Tomcat
instance to the detected list. -/
theorem Update_classifiers_independent :
    (∀ (state next : UpdateState) (params : List Str),
      Update.process state params = some next →
      next.ASInstances =
        if Update.isWebSphere params = true then
          CreateWebSphereInstance
            (if Update.isTomcat params = true then
              CreateTomcatInstance
                (if Update.isJBoss params = true then
                  CreateJBossInstance state.ASInstances params
                else state.ASInstances) params
            else if Update.isJBoss params = true then
              CreateJBossInstance state.ASInstances params
            else state.ASInstances) params
        else if Update.isTomcat params = true then
          CreateTomcatInstance
            (if Update.isJBoss params = true then
              CreateJBossInstance state.ASInstances params
            else state.ASInstances) params
        else if Update.isJBoss params = true then
          CreateJBossInstance state.ASInstances params
        else state.ASInstances) ∧
    (∀ (state : UpdateState) (params : List Str),
      Update.isWeblogic params = false ∨ (GetWeblogicHome params).isSome = true →
      (Update.process state params).isSome = true) ∧
    (∀ (state next : UpdateState) (params : List Str),
      "org.jboss.Main".toList ∈ params →
      "org.apache.catalina.startup.Bootstrap".toList ∈ params →
      ParseOutCommandLineArg params "-Djboss.home.dir".toList true true ≠ [] →
      ParseOutCommandLineArg params "-Dcatalina.home".toList true true ≠ [] →
      Update.process state params = some next →
      ∃ jboss tomcat rest, next.ASInstances = state.ASInstances ++ jboss :: tomcat :: rest ∧
        jboss.vendor = Vendor.JBoss ∧ tomcat.vendor = Vendor.Tomcat ∧
        ∀ inst ∈ rest, inst.vendor = Vendor.WebSphere) ∧
    Update.detect
        { Find := fun _ => [{ pid := 1 }],
          GetParameters := fun _ => some
            ["org.jboss.Main".toList, "org.apache.catalina.startup.Bootstrap".toList,
              "-Djboss.home.dir=/opt/jb".toList, "-Dcatalina.home=/opt/tc".toList],
          GetWeblogicInstances := fun _ => [] } =
      some [(JBossAppServerInstance "/opt/jb".toList "default".toList [] []).SetIsRunning true,
        (TomcatAppServerInstance "/opt/tc".toList "/opt/tc".toList).SetIsRunning true] := by
  refine ⟨fun state next params h => Update_process_instances state next params h,
    fun state params h => Update_process_isSome state params h,
    fun state next params hj ht hjh hch h => ?_, by decide⟩
  have hinst := Update_process_instances state next params h
  have hJ : Update.isJBoss params = true := by
    unfold Update.isJBoss
    rw [Bool.or_eq_true, Bool.or_eq_true, CheckProcessCmdLineArgExists_iff_mem]
    exact Or.inl (Or.inl hj)
  have hT : Update.isTomcat params = true := by
    unfold Update.isTomcat
    rw [CheckProcessCmdLineArgExists_iff_mem]
    exact ht
  obtain ⟨jboss, hjb, hvj⟩ := CreateJBossInstance_emits state.ASInstances params hjh
  obtain ⟨tomcat, htc, hvt⟩ := CreateTomcatInstance_emits (state.ASInstances ++ [jboss]) params hch
  obtain ⟨rest, hws, hvw⟩ :=
    CreateWebSphereInstance_adds (state.ASInstances ++ [jboss] ++ [tomcat]) params
  rw [if_pos hT, if_pos hJ, hjb, htc, hws] at hinst
  by_cases hW : Update.isWebSphere params = true
  · rw [if_pos hW] at hinst
    exact ⟨jboss, tomcat, rest, by rw [hinst]; simp, hvj, hvt, hvw⟩
  · rw [if_neg hW] at hinst
    exact ⟨jboss, tomcat, [], by rw [hinst]; simp, hvj, hvt, by simp⟩

/-- C20 at a concrete input: a process with the JBoss and the Tomcat marker
and both home values adds a JBoss and a Tomcat instance. -/
theorem Update_classifiers_independent_witness :
    ∃ jboss tomcat rest,
      ({ ASInstances :=
          [(JBossAppServerInstance "/opt/jb".toList "default".toList [] []).SetIsRunning true,
            (TomcatAppServerInstance "/opt/tc".toList "/opt/tc".toList).SetIsRunning true],
         gotWeblogicProcesses := false, weblogicProcesses := [] } : UpdateState).ASInstances =
        ({ ASInstances := [], gotWeblogicProcesses := false, weblogicProcesses := [] } :
          UpdateState).ASInstances ++ jboss :: tomcat :: rest ∧
      jboss.vendor = Vendor.JBoss ∧ tomcat.vendor = Vendor.Tomcat ∧
      ∀ inst ∈ rest, inst.vendor = Vendor.WebSphere :=
  Update_classifiers_independent.2.2.1
    { ASInstances := [], gotWeblogicProcesses := false, weblogicProcesses := [] }
    { ASInstances :=
        [(JBossAppServerInstance "/opt/jb".toList "default".toList [] []).SetIsRunning true,
          (TomcatAppServerInstance "/opt/tc".toList "/opt/tc".toList).SetIsRunning true],
      gotWeblogicProcesses := false, weblogicProcesses := [] }
    ["org.jboss.Main".toList, "org.apache.catalina.startup.Bootstrap".toList,
      "-Djboss.home.dir=/opt/jb".toList, "-Dcatalina.home=/opt/tc".toList]
    (by decide) (by decide) (by decide) (by decide) (by decide)

/-! ## Further lemmas on `GetParentDirectory` and the extractors -/

/-- The loop of `GetParentDirectory` leaves a path without `/` as it is. -/
theorem GetParentDirectory_loop_no_slash (path : Str) (n : Nat) (h : '/' ∉ path) :
    GetParentDirectory.loop n path = path := by
  have hnone : find_last_of "/".toList path = none := by
    apply find_last_of_none
    intro c hc hmem
    have hc2 : c = '/' := by simpa using hmem
    exact h (hc2 ▸ hc)
  induction n with
  | zero => rfl
  | succ k ih =>
    rw [GetParentDirectory.loop, hnone]
    exact ih

/-- An appended JBoss instance has a non-empty install path. -/
theorem CreateJBossInstance_install_nonempty (L : List AppServerInstance) (params : List Str)
    (inst : AppServerInstance) (h : CreateJBossInstance L params = L ++ [inst]) :
    inst.installPath ≠ [] := by
  unfold CreateJBossInstance at h
  dsimp only at h
  obtain ⟨hgot, hx⟩ := appended_iff_got _ _ _ _ h
  subst hx
  generalize ParseOutCommandLineArg params "-classpath".toList true true = arg at hgot ⊢
  generalize ParseOutCommandLineArg params "-Djboss.home.dir".toList true true = home at hgot ⊢
  generalize GetJBossPathFromClassPath arg = dir at hgot ⊢
  by_cases harg : arg = [] <;> by_cases hdir : dir = [] <;> by_cases hhome : home = [] <;>
    simp [List.length_pos, harg, hdir, hhome, JBossAppServerInstance,
      AppServerInstance.SetIsRunning] at hgot ⊢

/-- An appended Tomcat instance has a non-empty install path. -/
theorem CreateTomcatInstance_install_nonempty (L : List AppServerInstance)
    (params : List Str) (inst : AppServerInstance)
    (h : CreateTomcatInstance L params = L ++ [inst]) : inst.installPath ≠ [] := by
  unfold CreateTomcatInstance at h
  dsimp only at h
  obtain ⟨hgot, hx⟩ := appended_iff_got _ _ _ _ h
  subst hx
  generalize ParseOutCommandLineArg params "-Dcatalina.home".toList true true = home at hgot ⊢
  by_cases hhome : home = [] <;>
    simp [hhome, TomcatAppServerInstance, AppServerInstance.SetIsRunning] at hgot ⊢

/-- An appended WebSphere instance has a non-empty install path. -/
theorem CreateWebSphereInstance_install_nonempty (L : List AppServerInstance)
    (params : List Str) (inst : AppServerInstance)
    (h : CreateWebSphereInstance L params = L ++ [inst]) : inst.installPath ≠ [] := by
  obtain ⟨i, hi, hfirst, hlen⟩ := CreateWebSphereInstance_appended_params L params inst h
  rw [CreateWebSphereInstance_with_params L params i hi hfirst hlen] at h
  split at h
  · have hx := List.singleton_inj.mp (List.append_cancel_left h)
    rw [← hx]
    simp [WebSphereAppServerInstance, AppServerInstance.SetIsRunning]
  · split at h
    · rename_i hroot
      have hx := List.singleton_inj.mp (List.append_cancel_left h)
      rw [← hx]
      exact hroot
    · exact absurd h (ne_append_singleton L inst)

/-- An extractor of the shape `if got then L ++ [x] else L` leaves the list as
it is or appends the running instance `x`. -/
theorem unchanged_or_appended (L result : List AppServerInstance) (got : Bool)
    (x : AppServerInstance) (h : result = (if got = true then L ++ [x] else L))
    (hrun : x.isRunning = true)
    (hpath : ∀ inst, result = L ++ [inst] → inst.installPath ≠ []) :
    result = L ∨ ∃ inst, result = L ++ [inst] ∧ inst.isRunning = true ∧
      inst.installPath ≠ [] := by
  cases got with
  | false => exact Or.inl (by simpa using h)
  | true =>
    have h2 : result = L ++ [x] := by simpa using h
    exact Or.inr ⟨x, h2, hrun, hpath x h2⟩

/-! ## Theorems on `GetParentDirectory` -/

/-- C23 fails on the code: for a path that ends in `/` the code keeps only the
text from the last position on, the `/` itself, so that every result with at
least one level is the empty string; `/opt/Oracle/Middleware/wlserver_10.3/`
with one level gives the empty string, while the same path without the
trailing `/` gives `/opt/Oracle/Middleware`. -/
theorem GetParentDirectory_trailing_slash :
    (∀ (P : Str) (n : Nat), 1 ≤ n → GetParentDirectory (P ++ "/".toList) n = some []) ∧
    GetParentDirectory "/opt/Oracle/Middleware/wlserver_10.3/".toList 1 = some [] ∧
    GetParentDirectory "/opt/Oracle/Middleware/wlserver_10.3".toList 1 =
      some "/opt/Oracle/Middleware".toList := by
  refine ⟨fun P n hn => ?_, by decide, by decide⟩
  have hlast := last_char_append P "/".toList (by decide)
  have hdrop : (P ++ "/".toList).drop ((P ++ "/".toList).length - 1) = "/".toList := by
    have hl : (P ++ "/".toList).length - 1 = P.length := by simp
    rw [hl, List.drop_left]
  unfold GetParentDirectory
  rw [hlast]
  have hc : ("/".toList).getLast (by decide) = '/' := by decide
  simp only [hc, if_true, hdrop]
  obtain ⟨m, rfl⟩ : ∃ m, n = m + 1 := ⟨n - 1, by omega⟩
  rw [GetParentDirectory.loop]
  have h1 : (match find_last_of "/".toList "/".toList with
      | some pos => List.take pos "/".toList
      | none => "/".toList) = [] := by decide
  rw [h1]
  clear hn
  induction m with
  | zero => rfl
  | succ k ih =>
    rw [GetParentDirectory.loop]
    exact ih

/-- C24 fails on the code: for the token list `["-Dweblogic.home=/opt"]` the
inner call returns the empty string for `/opt`, the outer call of the two-level
computation is handed that empty string, and its read of the last character is
out of range; `GetWeblogicHome` has no result. -/
theorem GetWeblogicHome_empty_parent :
    ParseOutCommandLineArg ["-Dweblogic.home=/opt".toList] "-Dweblogic.home".toList
        true true = "/opt".toList ∧
      GetParentDirectory "/opt".toList 1 = some [] ∧
      GetParentDirectory [] 1 = none ∧
      GetWeblogicHome ["-Dweblogic.home=/opt".toList] = none := by
  decide

/-- C25, as stated, fails: the empty path contains no `/`, and the result for
it is not the path unchanged: the read of its last character is out of range
and there is no result. -/
theorem GetParentDirectory_empty_path_counterexample :
    '/' ∉ ([] : Str) ∧ GetParentDirectory [] 1 = none ∧
      GetParentDirectory [] 1 ≠ some [] := by
  decide

/-- C25, amended: for every string `X` and every `n ≥ 1` segments that are
non-empty and contain no `/`, the result for `X/s1/.../sn` with `n` levels is
`X`; for a non-empty path containing no `/` at all the result is the path
unchanged for every number of levels. -/
theorem GetParentDirectory_removes_levels :
    (∀ (X : Str) (segs : List Str), 1 ≤ segs.length →
      (∀ s ∈ segs, s ≠ [] ∧ '/' ∉ s) →
      GetParentDirectory (X ++ (segs.map (fun s => '/' :: s)).flatten) segs.length =
        some X) ∧
    (∀ (path : Str) (n : Nat), path ≠ [] → '/' ∉ path →
      GetParentDirectory path n = some path) := by
  refine ⟨fun X segs hlen hsegs => ?_, fun path n hne hs => ?_⟩
  · have hne : segs ≠ [] := by
      intro hc
      rw [hc] at hlen
      simp at hlen
    exact GetParentDirectory_segments X segs hne hsegs
  · have hlast := last_char_append [] path hne
    rw [List.nil_append] at hlast
    have hnot : ¬ '/' = path.getLast hne := fun hc => hs (hc ▸ List.getLast_mem hne)
    unfold GetParentDirectory
    rw [hlast]
    simp only [if_neg hnot]
    rw [GetParentDirectory_loop_no_slash path n hs]

/-- C25, amended, at a concrete input: three levels up from
`/opt/mw/a/b/c` is `/opt/mw`. -/
theorem GetParentDirectory_removes_levels_witness :
    GetParentDirectory ("/opt/mw".toList ++
        (["a".toList, "b".toList, "c".toList].map (fun s => '/' :: s)).flatten) 3 =
      some "/opt/mw".toList :=
  GetParentDirectory_removes_levels.1 "/opt/mw".toList ["a".toList, "b".toList, "c".toList]
    (by decide) (by decide)

/-! ## Further theorems on the extractors -/

/-- C26: for a token list that yields a JBoss instance, the deployment mode is
`standalone` if and only if the `-Djboss.server.data.dir` value is empty and
the `-Dlogging.configuration` value is not; in every other case, also when both
are present, it is the empty string. -/
theorem CreateJBossInstance_deployment_mode (L : List AppServerInstance)
    (params : List Str) (inst : AppServerInstance)
    (h : CreateJBossInstance L params = L ++ [inst]) :
    (inst.deploymentMode = "standalone".toList ↔
      ParseOutCommandLineArg params "-Djboss.server.data.dir".toList true false = [] ∧
      ParseOutCommandLineArg params "-Dlogging.configuration".toList true false ≠ []) ∧
    (¬ (ParseOutCommandLineArg params "-Djboss.server.data.dir".toList true false = [] ∧
        ParseOutCommandLineArg params "-Dlogging.configuration".toList true false ≠ []) →
      inst.deploymentMode = []) := by
  unfold CreateJBossInstance at h
  dsimp only at h
  obtain ⟨-, hx⟩ := appended_iff_got _ _ _ _ h
  subst hx
  generalize ParseOutCommandLineArg params "-Djboss.server.data.dir".toList true false = dom
  generalize ParseOutCommandLineArg params "-Dlogging.configuration".toList true false = std
  generalize ParseOutCommandLineArg params "-c".toList false true = dashC
  generalize ParseOutCommandLineArg params "-Djboss.server.name".toList true false = name
  by_cases hd : dom = [] <;> by_cases hs : std = [] <;> by_cases hc : dashC = [] <;>
    by_cases hn : name = [] <;>
    simp [JBossAppServerInstance, AppServerInstance.SetIsRunning, hd, hs, hc, hn]

/-- C26 at a concrete input: with `-Dlogging.configuration` and no
`-Djboss.server.data.dir` the deployment mode is `standalone`. -/
theorem CreateJBossInstance_deployment_mode_witness :
    ((JBossAppServerInstance "/opt/jb".toList "/opt/jb/standalone/configuration/".toList []
        "standalone".toList).SetIsRunning true).deploymentMode = "standalone".toList :=
  ((CreateJBossInstance_deployment_mode []
    ["-Djboss.home.dir=/opt/jb".toList, "-Dlogging.configuration=l.p".toList]
    ((JBossAppServerInstance "/opt/jb".toList "/opt/jb/standalone/configuration/".toList []
      "standalone".toList).SetIsRunning true)
    (by decide)).1).mpr ⟨by decide, by decide⟩

/-- C27: each of `CreateJBossInstance`, `CreateTomcatInstance` and
`CreateWebSphereInstance` leaves the list of instances collected so far as it
is, or extends it by exactly one instance at the end; the appended instance is
running and has a non-empty install path. -/
theorem extractors_only_append (L : List AppServerInstance) (params : List Str) :
    (CreateJBossInstance L params = L ∨
      ∃ inst, CreateJBossInstance L params = L ++ [inst] ∧ inst.isRunning = true ∧
        inst.installPath ≠ []) ∧
    (CreateTomcatInstance L params = L ∨
      ∃ inst, CreateTomcatInstance L params = L ++ [inst] ∧ inst.isRunning = true ∧
        inst.installPath ≠ []) ∧
    (CreateWebSphereInstance L params = L ∨
      ∃ inst, CreateWebSphereInstance L params = L ++ [inst] ∧ inst.isRunning = true ∧
        inst.installPath ≠ []) := by
  obtain ⟨gj, xj, hj, -, hrj⟩ := CreateJBossInstance_shape L params
  obtain ⟨gt, xt, ht, -, hrt⟩ := CreateTomcatInstance_shape L params
  obtain ⟨gw, xw, hw, -, hrw⟩ := CreateWebSphereInstance_shape L params
  exact ⟨unchanged_or_appended L _ gj xj hj hrj
      (fun inst h => CreateJBossInstance_install_nonempty L params inst h),
    unchanged_or_appended L _ gt xt ht hrt
      (fun inst h => CreateTomcatInstance_install_nonempty L params inst h),
    unchanged_or_appended L _ gw xw hw hrw
      (fun inst h => CreateWebSphereInstance_install_nonempty L params inst h)⟩

/-! ## Lemmas on the reconciliation -/

/-- The merged instance keeps the identity key of the known instance. -/
theorem identityKey_mergeInstance (known detected : AppServerInstance) :
    identityKey (mergeInstance known detected) = identityKey known := rfl

/-- The running flag is no part of the identity key. -/
theorem identityKey_SetIsRunning (inst : AppServerInstance) (b : Bool) :
    identityKey (inst.SetIsRunning b) = identityKey inst := rfl

/-- What the merge does to one known instance. -/
theorem knownStep_key (D : List AppServerInstance) (known : AppServerInstance) :
    identityKey
        (match D.find? (fun detected => decide (identityKey detected = identityKey known)) with
          | some detected => mergeInstance known detected
          | none => known.SetIsRunning false) = identityKey known := by
  cases D.find? (fun detected => decide (identityKey detected = identityKey known)) <;> rfl

/-- Merging a known instance a second time with the same detected set changes
nothing. -/
theorem knownStep_idem (D : List AppServerInstance) (known : AppServerInstance) :
    (match D.find? (fun detected => decide (identityKey detected = identityKey
          (match D.find? (fun detected => decide (identityKey detected = identityKey known)) with
            | some detected => mergeInstance known detected
            | none => known.SetIsRunning false))) with
      | some detected =>
        mergeInstance
          (match D.find? (fun detected => decide (identityKey detected = identityKey known)) with
            | some detected => mergeInstance known detected
            | none => known.SetIsRunning false) detected
      | none =>
        (match D.find? (fun detected => decide (identityKey detected = identityKey known)) with
          | some detected => mergeInstance known detected
          | none => known.SetIsRunning false).SetIsRunning false) =
      (match D.find? (fun detected => decide (identityKey detected = identityKey known)) with
        | some detected => mergeInstance known detected
        | none => known.SetIsRunning false) := by
  rw [knownStep_key D known]
  cases D.find? (fun detected => decide (identityKey detected = identityKey known)) <;> rfl

/-- Merging a newly added instance with the detected instance it comes from
changes nothing. -/
theorem mergeInstance_running_self (d : AppServerInstance) :
    mergeInstance (d.SetIsRunning true) d = d.SetIsRunning true := rfl

/-- An entry of the working list has the identity key of `d`. -/
theorem keyIn_iff (W : List AppServerInstance) (d : AppServerInstance) :
    W.any (fun havingKey => decide (identityKey havingKey = identityKey d)) = true ↔
      identityKey d ∈ W.map identityKey := by
  rw [List.any_eq_true, List.mem_map]
  constructor
  · rintro ⟨w, hw, hk⟩
    exact ⟨w, hw, by simpa using hk⟩
  · rintro ⟨w, hw, hk⟩
    exact ⟨w, hw, by simpa using hk⟩

/-- The search by key finds `d` in `D1 ++ d :: D2` when no member of `D1` has
the key of `d`. -/
theorem find_first_of_key (D1 D2 : List AppServerInstance) (d : AppServerInstance)
    (h : identityKey d ∉ D1.map identityKey) :
    (D1 ++ d :: D2).find? (fun detected => decide (identityKey detected = identityKey d)) =
      some d := by
  induction D1 with
  | nil => simp
  | cons a rest ih =>
    have ha : ¬ identityKey a = identityKey d := fun hc => h (by simp [hc])
    have hrest : identityKey d ∉ rest.map identityKey := fun hc => h (by simp [hc])
    rw [List.cons_append, List.find?_cons]
    simp only [ha, decide_False]
    exact ih hrest

/-- The instances added by the fold of `addDetected` over `D2`, after the
members of `D1` have been dealt with: each one is the first detected instance
of its key, set running; their keys are distinct and new; and afterwards every
key of `D2` is in the list. -/
theorem foldl_addDetected_spec (D2 D1 W : List AppServerInstance)
    (hinv : ∀ d ∈ D1, identityKey d ∈ W.map identityKey) :
    ∃ N, D2.foldl addDetected W = W ++ N ∧
      (∀ n ∈ N, ∃ d ∈ D2, n = d.SetIsRunning true ∧
        (D1 ++ D2).find? (fun detected => decide (identityKey detected = identityKey d)) =
          some d) ∧
      (N.map identityKey).Nodup ∧
      (∀ key ∈ N.map identityKey, key ∉ W.map identityKey) ∧
      (∀ d ∈ D2, identityKey d ∈ (W ++ N).map identityKey) := by
  induction D2 generalizing D1 W with
  | nil => exact ⟨[], by simp, by simp, by simp, by simp, by simp⟩
  | cons d rest ih =>
    rw [List.foldl_cons]
    by_cases hk : identityKey d ∈ W.map identityKey
    · have hstep : addDetected W d = W := by
        unfold addDetected
        rw [if_pos ((keyIn_iff W d).mpr hk)]
      rw [hstep]
      obtain ⟨N, hN, hfirst, hnodup, hnew, hall⟩ := ih (D1 ++ [d]) W (by
        intro x hx
        rcases List.mem_append.mp hx with hx | hx
        · exact hinv x hx
        · have hxd : x = d := by simpa using hx
          rw [hxd]
          exact hk)
      refine ⟨N, hN, ?_, hnodup, hnew, ?_⟩
      · intro n hn
        obtain ⟨x, hx, hnx, hfind⟩ := hfirst n hn
        refine ⟨x, List.mem_cons_of_mem _ hx, hnx, ?_⟩
        rw [List.append_assoc] at hfind
        exact hfind
      · intro x hx
        rcases List.mem_cons.mp hx with hx | hx
        · rw [hx, List.map_append]
          exact List.mem_append_left _ hk
        · exact hall x hx
    · have hstep : addDetected W d = W ++ [d.SetIsRunning true] := by
        unfold addDetected
        rw [if_neg (fun hc => hk ((keyIn_iff W d).mp hc))]
      rw [hstep]
      obtain ⟨N, hN, hfirst, hnodup, hnew, hall⟩ :=
        ih (D1 ++ [d]) (W ++ [d.SetIsRunning true]) (by
          intro x hx
          rw [List.map_append]
          rcases List.mem_append.mp hx with hx | hx
          · exact List.mem_append_left _ (hinv x hx)
          · have hxd : x = d := by simpa using hx
            rw [hxd]
            exact List.mem_append_right _ (by simp [identityKey_SetIsRunning]))
      refine ⟨d.SetIsRunning true :: N, ?_, ?_, ?_, ?_, ?_⟩
      · rw [hN, List.append_assoc]
        rfl
      · intro n hn
        rcases List.mem_cons.mp hn with hn | hn
        · refine ⟨d, List.mem_cons_self _ _, hn, ?_⟩
          apply find_first_of_key
          intro hc
          obtain ⟨x, hx, hxk⟩ := List.mem_map.mp hc
          apply hk
          rw [← hxk]
          exact hinv x hx
        · obtain ⟨x, hx, hnx, hfind⟩ := hfirst n hn
          refine ⟨x, List.mem_cons_of_mem _ hx, hnx, ?_⟩
          rw [List.append_assoc] at hfind
          exact hfind
      · rw [List.map_cons, List.nodup_cons]
        refine ⟨?_, hnodup⟩
        intro hc
        apply hnew _ hc
        rw [List.map_append]
        exact List.mem_append_right _ (by simp)
      · intro key hkey
        rw [List.map_cons] at hkey
        rcases List.mem_cons.mp hkey with hkey | hkey
        · rw [hkey, identityKey_SetIsRunning]
          exact hk
        · intro hc
          apply hnew key hkey
          rw [List.map_append]
          exact List.mem_append_left _ hc
      · intro x hx
        have hassoc : W ++ d.SetIsRunning true :: N = (W ++ [d.SetIsRunning true]) ++ N := by
          simp
        rw [hassoc]
        rcases List.mem_cons.mp hx with hx | hx
        · rw [hx, List.map_append, List.map_append]
          exact List.mem_append_left _ (List.mem_append_right _ (by
            simp [identityKey_SetIsRunning]))
        · exact hall x hx

/-- The fold of `addDetected` adds nothing when every detected key is already
in the list. -/
theorem foldl_addDetected_fixed (D W : List AppServerInstance)
    (h : ∀ d ∈ D, identityKey d ∈ W.map identityKey) : D.foldl addDetected W = W := by
  induction D with
  | nil => rfl
  | cons d rest ih =>
    have hstep : addDetected W d = W := by
      unfold addDetected
      rw [if_pos ((keyIn_iff W d).mpr (h d (List.mem_cons_self _ _)))]
    rw [List.foldl_cons, hstep]
    exact ih (fun x hx => h x (List.mem_cons_of_mem _ hx))

/-- The merged list: the known instances, each merged or cleared, followed by
the first detected instance of each new identity key, set running. -/
theorem merge_shape (K D : List AppServerInstance) :
    ∃ N, ManipulateAppServerInstances.UpdateInstancesWithRunningProcesses K D =
        K.map (fun known =>
          match D.find? (fun detected =>
              decide (identityKey detected = identityKey known)) with
          | some detected => mergeInstance known detected
          | none => known.SetIsRunning false) ++ N ∧
      (∀ n ∈ N, ∃ d ∈ D, n = d.SetIsRunning true ∧
        D.find? (fun detected => decide (identityKey detected = identityKey d)) = some d) ∧
      (N.map identityKey).Nodup ∧
      (∀ key ∈ N.map identityKey, key ∉ K.map identityKey) ∧
      (∀ d ∈ D, identityKey d ∈
        (ManipulateAppServerInstances.UpdateInstancesWithRunningProcesses K D).map
          identityKey) := by
  have hkeys : (K.map (fun known =>
      match D.find? (fun detected =>
          decide (identityKey detected = identityKey known)) with
      | some detected => mergeInstance known detected
      | none => known.SetIsRunning false)).map identityKey = K.map identityKey := by
    rw [List.map_map]
    apply List.map_congr_left
    intro k _
    exact knownStep_key D k
  obtain ⟨N, hN, hfirst, hnodup, hnew, hall⟩ := foldl_addDetected_spec D []
    (K.map (fun known =>
      match D.find? (fun detected =>
          decide (identityKey detected = identityKey known)) with
      | some detected => mergeInstance known detected
      | none => known.SetIsRunning false)) (by simp)
  refine ⟨N, hN, ?_, hnodup, ?_, ?_⟩
  · intro n hn
    obtain ⟨d, hd, hnd, hfind⟩ := hfirst n hn
    exact ⟨d, hd, hnd, by simpa using hfind⟩
  · intro key hkey
    rw [← hkeys]
    exact hnew key hkey
  · intro d hd
    have hM : ManipulateAppServerInstances.UpdateInstancesWithRunningProcesses K D =
        K.map (fun known =>
          match D.find? (fun detected =>
              decide (identityKey detected = identityKey known)) with
          | some detected => mergeInstance known detected
          | none => known.SetIsRunning false) ++ N := hN
    rw [hM]
    exact hall d hd

/-- The merge is idempotent: merging the result with the same detected list
again changes nothing. -/
theorem merge_idempotent (K D : List AppServerInstance) :
    ManipulateAppServerInstances.UpdateInstancesWithRunningProcesses
        (ManipulateAppServerInstances.UpdateInstancesWithRunningProcesses K D) D =
      ManipulateAppServerInstances.UpdateInstancesWithRunningProcesses K D := by
  obtain ⟨N, hshape, hfirst, -, -, hall⟩ := merge_shape K D
  have hfix : (ManipulateAppServerInstances.UpdateInstancesWithRunningProcesses K D).map
      (fun known =>
        match D.find? (fun detected =>
            decide (identityKey detected = identityKey known)) with
        | some detected => mergeInstance known detected
        | none => known.SetIsRunning false) =
      ManipulateAppServerInstances.UpdateInstancesWithRunningProcesses K D := by
    conv_rhs => rw [← List.map_id
      (ManipulateAppServerInstances.UpdateInstancesWithRunningProcesses K D)]
    apply List.map_congr_left
    intro r hr
    rw [hshape] at hr
    rcases List.mem_append.mp hr with hr | hr
    · obtain ⟨k, -, hk⟩ := List.mem_map.mp hr
      rw [← hk]
      exact knownStep_idem D k
    · obtain ⟨d, -, hnd, hfind⟩ := hfirst r hr
      rw [hnd, id, identityKey_SetIsRunning, hfind]
      rfl
  have hunfold : ManipulateAppServerInstances.UpdateInstancesWithRunningProcesses
      (ManipulateAppServerInstances.UpdateInstancesWithRunningProcesses K D) D =
      D.foldl addDetected
        ((ManipulateAppServerInstances.UpdateInstancesWithRunningProcesses K D).map
          (fun known =>
            match D.find? (fun detected =>
                decide (identityKey detected = identityKey known)) with
            | some detected => mergeInstance known detected
            | none => known.SetIsRunning false)) := rfl
  rw [hunfold, hfix]
  exact foldl_addDetected_fixed D _ hall

/-- The identity keys of the merged list are those of the known instances, in
order, followed by keys that are new and distinct. -/
theorem merge_keys (K D : List AppServerInstance) :
    ∃ added, (ManipulateAppServerInstances.UpdateInstancesWithRunningProcesses K D).map
        identityKey = K.map identityKey ++ added ∧
      added.Nodup ∧ ∀ key ∈ added, key ∉ K.map identityKey := by
  obtain ⟨N, hshape, -, hnodup, hnew, -⟩ := merge_shape K D
  refine ⟨N.map identityKey, ?_, hnodup, hnew⟩
  rw [hshape, List.map_append, List.map_map]
  congr 1
  apply List.map_congr_left
  intro k _
  exact knownStep_key D k

/-! ## Lemmas on the loop of `Update` -/

/-- One conditional extractor step adds instances that satisfy `P` when the
extractor does. -/
theorem adds_step (P : AppServerInstance → Prop) (b : Bool)
    (f : List AppServerInstance → List AppServerInstance)
    (hf : ∀ L, ∃ new, f L = L ++ new ∧ ∀ inst ∈ new, P inst)
    (base L new0 : List AppServerInstance) (hL : L = base ++ new0)
    (h0 : ∀ inst ∈ new0, P inst) :
    ∃ new, (if b = true then f L else L) = base ++ new ∧ ∀ inst ∈ new, P inst := by
  cases b with
  | false => exact ⟨new0, by simpa using hL, h0⟩
  | true =>
    obtain ⟨n1, h1, hp1⟩ := hf L
    refine ⟨new0 ++ n1, by rw [if_pos rfl, h1, hL, List.append_assoc], fun inst hi => ?_⟩
    rcases List.mem_append.mp hi with hi | hi
    · exact h0 inst hi
    · exact hp1 inst hi

/-- What one process adds to the list of instances comes from the three
extractors: no instance of the WebLogic family. -/
theorem Update_process_adds (state next : UpdateState) (params : List Str)
    (h : Update.process state params = some next) :
    ∃ new, next.ASInstances = state.ASInstances ++ new ∧
      ∀ inst ∈ new, inst.vendor ≠ Vendor.WebLogic := by
  have hinst := Update_process_instances state next params h
  have hshape : next.ASInstances =
      (if Update.isWebSphere params = true then
        (fun L => CreateWebSphereInstance L params)
          (if Update.isTomcat params = true then
            (fun L => CreateTomcatInstance L params)
              (if Update.isJBoss params = true then
                (fun L => CreateJBossInstance L params) state.ASInstances
              else state.ASInstances)
          else (if Update.isJBoss params = true then
            (fun L => CreateJBossInstance L params) state.ASInstances
          else state.ASInstances))
      else (if Update.isTomcat params = true then
        (fun L => CreateTomcatInstance L params)
          (if Update.isJBoss params = true then
            (fun L => CreateJBossInstance L params) state.ASInstances
          else state.ASInstances)
      else (if Update.isJBoss params = true then
        (fun L => CreateJBossInstance L params) state.ASInstances
      else state.ASInstances))) := hinst
  rw [hshape]
  have hJ : ∀ L, ∃ new, (fun L => CreateJBossInstance L params) L = L ++ new ∧
      ∀ inst ∈ new, inst.vendor ≠ Vendor.WebLogic := fun L => by
    obtain ⟨n, hn, hv⟩ := CreateJBossInstance_adds L params
    exact ⟨n, hn, fun inst hi => by rw [hv inst hi]; decide⟩
  have hT : ∀ L, ∃ new, (fun L => CreateTomcatInstance L params) L = L ++ new ∧
      ∀ inst ∈ new, inst.vendor ≠ Vendor.WebLogic := fun L => by
    obtain ⟨n, hn, hv⟩ := CreateTomcatInstance_adds L params
    exact ⟨n, hn, fun inst hi => by rw [hv inst hi]; decide⟩
  have hW : ∀ L, ∃ new, (fun L => CreateWebSphereInstance L params) L = L ++ new ∧
      ∀ inst ∈ new, inst.vendor ≠ Vendor.WebLogic := fun L => by
    obtain ⟨n, hn, hv⟩ := CreateWebSphereInstance_adds L params
    exact ⟨n, hn, fun inst hi => by rw [hv inst hi]; decide⟩
  obtain ⟨n1, h1, p1⟩ := adds_step _ (Update.isJBoss params) _ hJ state.ASInstances
    state.ASInstances [] (by simp) (by simp)
  obtain ⟨n2, h2, p2⟩ := adds_step _ (Update.isTomcat params) _ hT state.ASInstances
    _ n1 h1 p1
  obtain ⟨n3, h3, p3⟩ := adds_step _ (Update.isWebSphere params) _ hW state.ASInstances
    _ n2 h2 p2
  exact ⟨n3, h3, p3⟩

/-- What one process adds to the batch of WebLogic homes. -/
theorem Update_process_weblogic (state next : UpdateState) (params : List Str)
    (h : Update.process state params = some next) :
    next.weblogicProcesses = state.weblogicProcesses ++
        (if "weblogic.Server".toList ∈ params then
          match GetWeblogicHome params with
          | none => none
          | some wlHome => if wlHome = [] then none else some wlHome
        else none).toList ∧
      next.gotWeblogicProcesses = (state.gotWeblogicProcesses ||
        (if "weblogic.Server".toList ∈ params then
          match GetWeblogicHome params with
          | none => none
          | some wlHome => if wlHome = [] then none else some wlHome
        else none).isSome) := by
  have hmem : Update.isWeblogic params = true ↔ "weblogic.Server".toList ∈ params := by
    unfold Update.isWeblogic
    exact CheckProcessCmdLineArgExists_iff_mem _ _
  unfold Update.process at h
  dsimp only at h
  by_cases hw : "weblogic.Server".toList ∈ params
  · have hw2 := hmem.mpr hw
    rw [if_pos hw]
    rw [if_pos hw2] at h
    cases hhome : GetWeblogicHome params with
    | none => rw [hhome] at h; simp at h
    | some wlHome =>
      rw [hhome] at h
      cases wlHome with
      | nil =>
        simp only [List.isEmpty_nil, Bool.not_true, Bool.false_eq_true, if_false,
          Option.some.injEq] at h
        rw [← h]
        simp
      | cons c cs =>
        simp only [List.isEmpty_cons, Bool.not_false, if_true, Option.some.injEq] at h
        rw [← h]
        simp
  · have hw2 : ¬ Update.isWeblogic params = true := fun hc => hw (hmem.mp hc)
    rw [if_neg hw]
    rw [if_neg hw2] at h
    simp only [Option.some.injEq] at h
    rw [← h]
    simp

/-- The state after the loop of `Update`: the batch of WebLogic homes has
grown by the homes of the processes in the words of the specification, the
flag tells whether the batch has an entry, and the instances added are not of
the WebLogic family. -/
theorem Update_loop_spec (deps : AppServerPALDependencies) (procList : List ProcessInstance)
    (state final : UpdateState) (h : Update.loop deps procList state = some final) :
    final.weblogicProcesses =
        state.weblogicProcesses ++ Update.weblogicBatchSpec deps procList ∧
      final.gotWeblogicProcesses = (state.gotWeblogicProcesses ||
        !(Update.weblogicBatchSpec deps procList).isEmpty) ∧
      ∃ new, final.ASInstances = state.ASInstances ++ new ∧
        ∀ inst ∈ new, inst.vendor ≠ Vendor.WebLogic := by
  induction procList generalizing state with
  | nil =>
    rw [Update.loop] at h
    simp only [Option.some.injEq] at h
    subst h
    exact ⟨by simp [Update.weblogicBatchSpec], by simp [Update.weblogicBatchSpec],
      [], by simp, by simp⟩
  | cons it rest ih =>
    rw [Update.loop] at h
    cases hp : deps.GetParameters it with
    | none =>
      rw [hp] at h
      dsimp only at h
      have hb : Update.weblogicBatchSpec deps (it :: rest) =
          Update.weblogicBatchSpec deps rest := by
        simp [Update.weblogicBatchSpec, hp]
      rw [hb]
      exact ih state h
    | some params =>
      rw [hp] at h
      dsimp only at h
      cases hproc : Update.process state params with
      | none => rw [hproc] at h; simp at h
      | some next =>
        rw [hproc] at h
        dsimp only at h
        obtain ⟨hwl, hgot, new1, hnew1, hv1⟩ := ih next h
        obtain ⟨hwl0, hgot0⟩ := Update_process_weblogic state next params hproc
        obtain ⟨new0, hnew0, hv0⟩ := Update_process_adds state next params hproc
        have hb : Update.weblogicBatchSpec deps (it :: rest) =
            (if "weblogic.Server".toList ∈ params then
              match GetWeblogicHome params with
              | none => none
              | some wlHome => if wlHome = [] then none else some wlHome
            else none).toList ++ Update.weblogicBatchSpec deps rest := by
          unfold Update.weblogicBatchSpec
          rw [List.filterMap_cons]
          simp only [hp]
          cases (if "weblogic.Server".toList ∈ params then
              match GetWeblogicHome params with
              | none => none
              | some wlHome => if wlHome = [] then none else some wlHome
            else none) <;> rfl
        refine ⟨?_, ?_, new0 ++ new1, ?_, ?_⟩
        · rw [hwl, hwl0, hb, List.append_assoc]
        · rw [hgot, hgot0, hb]
          cases (if "weblogic.Server".toList ∈ params then
              match GetWeblogicHome params with
              | none => none
              | some wlHome => if wlHome = [] then none else some wlHome
            else none) <;> simp
        · rw [hnew1, hnew0, List.append_assoc]
        · intro inst hi
          rcases List.mem_append.mp hi with hi | hi
          · exact hv0 inst hi
          · exact hv1 inst hi

/-- The loop of `Update` has a result when the WebLogic home of every process
with the `weblogic.Server` token is defined. -/
theorem Update_loop_isSome (deps : AppServerPALDependencies) (procList : List ProcessInstance)
    (state : UpdateState)
    (h : ∀ it ∈ procList, ∀ params, deps.GetParameters it = some params →
      "weblogic.Server".toList ∈ params → (GetWeblogicHome params).isSome = true) :
    (Update.loop deps procList state).isSome = true := by
  induction procList generalizing state with
  | nil => rfl
  | cons it rest ih =>
    have hrest : ∀ it2 ∈ rest, ∀ params, deps.GetParameters it2 = some params →
        "weblogic.Server".toList ∈ params → (GetWeblogicHome params).isSome = true :=
      fun it2 hit2 => h it2 (List.mem_cons_of_mem _ hit2)
    rw [Update.loop]
    cases hp : deps.GetParameters it with
    | none => exact ih state hrest
    | some params =>
      dsimp only
      have hsome : (Update.process state params).isSome = true := by
        apply Update_process_isSome
        by_cases hw : "weblogic.Server".toList ∈ params
        · exact Or.inr (h it (List.mem_cons_self _ _) params hp hw)
        · left
          unfold Update.isWeblogic
          cases hc : CheckProcessCmdLineArgExists params "weblogic.Server".toList with
          | false => rfl
          | true => exact absurd ((CheckProcessCmdLineArgExists_iff_mem _ _).mp hc) hw
      cases hproc : Update.process state params with
      | none => rw [hproc] at hsome; simp at hsome
      | some next => exact ih next hrest

/-! ## Theorems on `Update` -/

/-- C21: when the sweep has a result, the list built for
`GetWeblogicInstances` is exactly the non-empty `GetWeblogicHome` results of
the processes whose tokens contain `weblogic.Server`, in process order;
`GetWeblogicInstances` is not called when that list is empty (the detected
list is then the list of the extractors alone); and the instances it returns
come, in order, after all instances produced by the JBoss, Tomcat and WebSphere
extractors. The sweep has a result when the WebLogic home of each such process
is defined. -/
theorem Update_weblogic_batching (deps : AppServerPALDependencies) :
    (∀ result, Update.detect deps = some result →
      ∃ final, Update.loop deps (deps.Find "java".toList)
          { ASInstances := [], gotWeblogicProcesses := false, weblogicProcesses := [] } =
          some final ∧
        final.weblogicProcesses = Update.weblogicBatchSpec deps (deps.Find "java".toList) ∧
        (∀ inst ∈ final.ASInstances, inst.vendor ≠ Vendor.WebLogic) ∧
        (Update.weblogicBatchSpec deps (deps.Find "java".toList) = [] →
          result = final.ASInstances) ∧
        (Update.weblogicBatchSpec deps (deps.Find "java".toList) ≠ [] →
          result = final.ASInstances ++ deps.GetWeblogicInstances
            (Update.weblogicBatchSpec deps (deps.Find "java".toList)))) ∧
    ((∀ it ∈ deps.Find "java".toList, ∀ params, deps.GetParameters it = some params →
        "weblogic.Server".toList ∈ params → (GetWeblogicHome params).isSome = true) →
      (Update.detect deps).isSome = true) := by
  constructor
  · intro result h
    unfold Update.detect at h
    cases hloop : Update.loop deps (deps.Find "java".toList)
        { ASInstances := [], gotWeblogicProcesses := false, weblogicProcesses := [] } with
    | none => rw [hloop] at h; simp at h
    | some final =>
      rw [hloop] at h
      dsimp only at h
      obtain ⟨hwl, hgot, new, hnew, hv⟩ := Update_loop_spec deps _ _ final hloop
      simp only [List.nil_append, Bool.false_or] at hwl hgot hnew
      refine ⟨final, rfl, hwl, ?_, ?_, ?_⟩
      · rw [hnew]
        exact hv
      · intro hempty
        rw [hempty] at hgot
        simp only [hgot, List.isEmpty_nil, Bool.not_true, Bool.false_eq_true, if_false,
          Option.some.injEq] at h
        exact h.symm
      · intro hne
        have hgot2 : final.gotWeblogicProcesses = true := by
          rw [hgot]
          cases hb : Update.weblogicBatchSpec deps (deps.Find "java".toList) with
          | nil => exact absurd hb hne
          | cons a rest => rfl
        simp only [hgot2, if_true, Option.some.injEq] at h
        rw [← h, hwl]
  · intro hdef
    have hloop := Update_loop_isSome deps (deps.Find "java".toList)
      { ASInstances := [], gotWeblogicProcesses := false, weblogicProcesses := [] } hdef
    unfold Update.detect
    cases hl : Update.loop deps (deps.Find "java".toList)
        { ASInstances := [], gotWeblogicProcesses := false, weblogicProcesses := [] } with
    | none => rw [hl] at hloop; simp at hloop
    | some final =>
      by_cases hg : final.gotWeblogicProcesses = true <;> simp [hg]

/-- C21 at a concrete input: of three processes the first and the third are
WebLogic servers with the homes `/opt/wl1` and `/opt/wl2`, the second is a
Tomcat; the batch is `["/opt/wl1", "/opt/wl2"]`. -/
theorem Update_weblogic_batching_witness :
    ∃ final : UpdateState,
      final.weblogicProcesses = ["/opt/wl1".toList, "/opt/wl2".toList] ∧
      ∀ inst ∈ final.ASInstances, inst.vendor ≠ Vendor.WebLogic :=
  match (Update_weblogic_batching
      { Find := fun _ => [{ pid := 1 }, { pid := 2 }, { pid := 3 }],
        GetParameters := fun it =>
          if it.pid = 1 then some ["weblogic.Server".toList, "-Dbea.home=/opt/wl1".toList]
          else if it.pid = 2 then
            some ["org.apache.catalina.startup.Bootstrap".toList,
              "-Dcatalina.home=/opt/tc".toList]
          else some ["weblogic.Server".toList, "-Dplatform.home=/opt/wl2/server".toList],
        GetWeblogicInstances := fun homes => homes.map (fun home =>
          { vendor := Vendor.WebLogic, installPath := home, configPath := [],
            portOffset := [], deploymentMode := [], cell := [], node := [], server := [],
            profile := [], isRunning := true }) }).1
    [(TomcatAppServerInstance "/opt/tc".toList "/opt/tc".toList).SetIsRunning true,
      { vendor := Vendor.WebLogic, installPath := "/opt/wl1".toList, configPath := [],
        portOffset := [], deploymentMode := [], cell := [], node := [], server := [],
        profile := [], isRunning := true },
      { vendor := Vendor.WebLogic, installPath := "/opt/wl2".toList, configPath := [],
        portOffset := [], deploymentMode := [], cell := [], node := [], server := [],
        profile := [], isRunning := true }]
    (by decide) with
  | ⟨final, _, hwl, hv, _, _⟩ => ⟨final, hwl.trans (by decide), hv⟩

/-- C22: for every known list and every detected list, merging the known one
with the detected one and merging the result with the same detected list again
gives the first result: no further entry and no further change. The merge keeps
the identity keys of the known instances and adds each new key once. A second
`Update` over the same processes leaves the instances held as the first one
left them, also when several processes share one install. -/
theorem reconciliation_idempotent :
    (∀ (known detected : List AppServerInstance),
      ManipulateAppServerInstances.UpdateInstancesWithRunningProcesses
          (ManipulateAppServerInstances.UpdateInstancesWithRunningProcesses known detected)
          detected =
        ManipulateAppServerInstances.UpdateInstancesWithRunningProcesses known detected) ∧
    (∀ (known detected : List AppServerInstance),
      ∃ added,
        (ManipulateAppServerInstances.UpdateInstancesWithRunningProcesses known detected).map
          identityKey = known.map identityKey ++ added ∧
        added.Nodup ∧ ∀ key ∈ added, key ∉ known.map identityKey) ∧
    (∀ (deps : AppServerPALDependencies) (held first : List AppServerInstance),
      Update deps held = some first → Update deps first = some first) := by
  refine ⟨merge_idempotent, merge_keys, fun deps held first h => ?_⟩
  unfold Update at h ⊢
  cases hdet : Update.detect deps with
  | none => rw [hdet] at h; simp at h
  | some detected =>
    rw [hdet] at h
    simp only [Option.some.injEq] at h
    rw [← h]
    dsimp only
    rw [merge_idempotent held detected]

/-- C22 at a concrete input: two Tomcat processes share the install
`/opt/tc` and differ in their base; the first `Update` holds one instance for
them and the second `Update` leaves it as it is. -/
theorem reconciliation_idempotent_witness :
    Update
        { Find := fun _ => [{ pid := 1 }, { pid := 2 }],
          GetParameters := fun it =>
            if it.pid = 1 then
              some ["org.apache.catalina.startup.Bootstrap".toList,
                "-Dcatalina.home=/opt/tc".toList, "-Dcatalina.base=/srv/a".toList]
            else
              some ["org.apache.catalina.startup.Bootstrap".toList,
                "-Dcatalina.home=/opt/tc".toList, "-Dcatalina.base=/srv/b".toList],
          GetWeblogicInstances := fun _ => [] }
        [(TomcatAppServerInstance "/srv/a".toList "/opt/tc".toList).SetIsRunning true] =
      some [(TomcatAppServerInstance "/srv/a".toList "/opt/tc".toList).SetIsRunning true] :=
  reconciliation_idempotent.2.2
    { Find := fun _ => [{ pid := 1 }, { pid := 2 }],
      GetParameters := fun it =>
        if it.pid = 1 then
          some ["org.apache.catalina.startup.Bootstrap".toList,
            "-Dcatalina.home=/opt/tc".toList, "-Dcatalina.base=/srv/a".toList]
        else
          some ["org.apache.catalina.startup.Bootstrap".toList,
            "-Dcatalina.home=/opt/tc".toList, "-Dcatalina.base=/srv/b".toList],
      GetWeblogicInstances := fun _ => [] }
    [] [(TomcatAppServerInstance "/srv/a".toList "/opt/tc".toList).SetIsRunning true]
    (by decide)

end SCXSystemLib
